import Mathlib

/-!
# greenlight: a shallow embedding of `pkg/browser` and `pkg/page`

The Go program drives a browser over its debugging socket.  This file embeds

* the decoded JSON values the program inspects (`map[string]interface{}`),
* `pkg/browser/browser.go`: `GreenLight`, `launch`, `attachToPage`,
  `SendCommandWithResponse`, `SendCommandWithoutResponse`, `NewPage`, `RedLight`,
* `pkg/page/page.go`: `elementExists`, `Fill`, `Click`, `TypeSequentially`,
  `InnerText`, `TypeWithMistakes`, `GetHtml`,

and proves properties of them.  Everything outside the program (the HTTP
endpoint, the socket, the operating system, the clock, the random source) is an
explicit argument: the outcome it produced.
-/

namespace Greenlight

/-! ## Numbers -/

/-- A finite binary floating point value `mant * 2 ^ exp`.  Every finite
`float64` and `float32` is of this form. -/
structure Dyadic where
  mant : Int
  exp : Int
deriving DecidableEq, Repr

/-- The `float64` that `encoding/json` stores for a JSON number. -/
abbrev Float64 := Dyadic

/-- The `float32` returned by `rand.Float32`. -/
abbrev Float32 := Dyadic

/-- The value `float64(n)` of a small integer. -/
def Dyadic.ofInt (n : Int) : Dyadic := ⟨n, 0⟩

/-- The integer part of the value, rounding toward zero. -/
def Dyadic.trunc (x : Dyadic) : Int :=
  if 0 ≤ x.exp then x.mant * 2 ^ x.exp.toNat else Int.tdiv x.mant (2 ^ (-x.exp).toNat)

/-- The value is exactly the integer `n`. -/
def Dyadic.isInt (x : Dyadic) (n : Int) : Bool :=
  if 0 ≤ x.exp then x.mant * 2 ^ x.exp.toNat == n else x.mant == n * 2 ^ (-x.exp).toNat

/-- Strict order of the values. -/
def Dyadic.lt (a b : Dyadic) : Bool :=
  let m := min a.exp b.exp
  decide (a.mant * 2 ^ (a.exp - m).toNat < b.mant * 2 ^ (b.exp - m).toNat)

/-- The smallest Go `int` (64 bit). -/
def minInt : Int := -(2 ^ 63)

/-- The largest Go `int` (64 bit). -/
def maxInt : Int := 2 ^ 63 - 1

/-- Go `int` arithmetic wraps around in two's complement. -/
def wrapInt (x : Int) : Int := (x + 2 ^ 63) % 2 ^ 64 - 2 ^ 63

/-- The conversion `int(x)` of a `float64`: the fraction is discarded.  When the
truncated value does not fit an `int` the Go specification leaves the result to
the implementation; `oor` is what the platform yields in that case. -/
def goInt (oor : Float64 → Int) (x : Float64) : Int :=
  if minInt ≤ x.trunc ∧ x.trunc ≤ maxInt then x.trunc else oor x

/-- `time.Millisecond`, in nanoseconds. -/
def Millisecond : Int := 1000000

/-- `time.Second`, in nanoseconds. -/
def Second : Int := 1000000000

/-! ## Decoded JSON -/

/-- A value as `encoding/json` decodes it into `interface{}`. -/
inductive Json where
  | null
  | bool (b : Bool)
  | num (x : Float64)
  | str (s : String)
  | arr (items : List Json)
  | obj (fields : List (String × Json))

/-- A decoded `map[string]interface{}`; the first binding of a key is the one
the map holds.  The nil map is the empty list. -/
abbrev Obj := List (String × Json)

mutual
/-- Equality of decoded values is decidable. -/
def Json.decEq : (a b : Json) → Decidable (a = b)
  | .null, .null => isTrue rfl
  | .bool a, .bool b =>
    if h : a = b then isTrue (by rw [h]) else isFalse (by intro h2; cases h2; exact h rfl)
  | .num a, .num b =>
    if h : a = b then isTrue (by rw [h]) else isFalse (by intro h2; cases h2; exact h rfl)
  | .str a, .str b =>
    if h : a = b then isTrue (by rw [h]) else isFalse (by intro h2; cases h2; exact h rfl)
  | .arr a, .arr b =>
    match Json.decEqItems a b with
    | isTrue h => isTrue (by rw [h])
    | isFalse h => isFalse (by intro h2; cases h2; exact h rfl)
  | .obj a, .obj b =>
    match Json.decEqFields a b with
    | isTrue h => isTrue (by rw [h])
    | isFalse h => isFalse (by intro h2; cases h2; exact h rfl)
  | .null, .bool _ | .null, .num _ | .null, .str _ | .null, .arr _ | .null, .obj _
  | .bool _, .null | .bool _, .num _ | .bool _, .str _ | .bool _, .arr _ | .bool _, .obj _
  | .num _, .null | .num _, .bool _ | .num _, .str _ | .num _, .arr _ | .num _, .obj _
  | .str _, .null | .str _, .bool _ | .str _, .num _ | .str _, .arr _ | .str _, .obj _
  | .arr _, .null | .arr _, .bool _ | .arr _, .num _ | .arr _, .str _ | .arr _, .obj _
  | .obj _, .null | .obj _, .bool _ | .obj _, .num _ | .obj _, .str _ | .obj _, .arr _ =>
    isFalse (by intro h; cases h)
/-- Equality of lists of decoded values is decidable. -/
def Json.decEqItems : (a b : List Json) → Decidable (a = b)
  | [], [] => isTrue rfl
  | [], _ :: _ => isFalse (by intro h; cases h)
  | _ :: _, [] => isFalse (by intro h; cases h)
  | x :: xs, y :: ys =>
    match Json.decEq x y, Json.decEqItems xs ys with
    | isTrue h1, isTrue h2 => isTrue (by rw [h1, h2])
    | isFalse h1, _ => isFalse (by intro h; cases h; exact h1 rfl)
    | _, isFalse h2 => isFalse (by intro h; cases h; exact h2 rfl)
/-- Equality of decoded maps is decidable. -/
def Json.decEqFields : (a b : List (String × Json)) → Decidable (a = b)
  | [], [] => isTrue rfl
  | [], _ :: _ => isFalse (by intro h; cases h)
  | _ :: _, [] => isFalse (by intro h; cases h)
  | (k1, x) :: xs, (k2, y) :: ys =>
    if hk : k1 = k2 then
      match Json.decEq x y, Json.decEqFields xs ys with
      | isTrue h1, isTrue h2 => isTrue (by rw [hk, h1, h2])
      | isFalse h1, _ => isFalse (by intro h; cases h; exact h1 rfl)
      | _, isFalse h2 => isFalse (by intro h; cases h; exact h2 rfl)
    else isFalse (by intro h; cases h; exact hk rfl)
end

instance : DecidableEq Json := Json.decEq

/-- The map index expression `m[k]`: the nil interface (here `null`) when the key
is absent. -/
def index (m : Obj) (k : String) : Json :=
  match m.lookup k with
  | some v => v
  | none => Json.null

/-- The type assertion `v.(string)`. -/
def Json.asString : Json → Option String
  | .str s => some s
  | _ => none

/-- The type assertion `v.(bool)`. -/
def Json.asBool : Json → Option Bool
  | .bool b => some b
  | _ => none

/-- The type assertion `v.(float64)`. -/
def Json.asFloat64 : Json → Option Float64
  | .num x => some x
  | _ => none

/-- The type assertion `v.(map[string]interface{})`. -/
def Json.asMap : Json → Option Obj
  | .obj m => some m
  | _ => none

/-! ## Errors -/

/-- A Go `error`.  `text` is an error carrying only its message (`errors.New`,
`fmt.Errorf` with `%s` operands, an error of a library); `wrap pre cause` is
`fmt.Errorf(pre + ": %w", cause)`; `shape pre response` is
`fmt.Errorf(pre + ": %v", response)`. -/
inductive Error where
  | text (msg : String)
  | wrap (pre : String) (cause : Error)
  | shape (pre : String) (response : Obj)
deriving DecidableEq

deriving instance DecidableEq for Except

/-- How a call ends: it returns a value, it blocks forever on the socket, or
the goroutine dereferences a nil connection. -/
inductive Completion (α : Type) where
  | returned (value : α)
  | blocks
  | nilDeref
deriving DecidableEq

/-! ## `pkg/browser` -/

/-- The JSON object written to the socket: `id`, `method`, `params`. -/
structure Message where
  id : Int
  method : String
  params : Obj
deriving DecidableEq

/-- What one `ReadMessage` yields: an error, or a payload, given by what
`json.Unmarshal` into a `map[string]interface{}` makes of it (`none` when
`Unmarshal` reports an error). -/
inductive ReadResult where
  | failure (err : Error)
  | frame (decoded : Option Obj)
deriving DecidableEq

/-- A `*websocket.Conn`: the frames successive reads will yield, the messages
written so far, and whether `Close` has been called. -/
structure Conn where
  url : String
  inbound : List ReadResult
  outbound : List Message
  closed : Bool
deriving DecidableEq

/-- An `*exec.Cmd`; `process` is the process id once `Start` has succeeded. -/
structure Cmd where
  path : String
  args : List String
  process : Option Int
deriving DecidableEq

/-- The `Browser` struct.  `conn` and `cmd` are pointers (`none` is nil);
`cancelled` records whether `cancel` has been called. -/
structure Browser where
  execPath : String
  wsEndpoint : String
  conn : Option Conn
  cmd : Option Cmd
  cancelled : Bool
  userDataDir : String
  messageID : Int
  PID : Int
  isHeadless : Bool
deriving DecidableEq

/-- The outcome of `http.Get` followed by decoding the body into
`[]map[string]interface{}`. -/
inductive Fetched where
  | getFailed (err : Error)
  | decodeFailed (err : Error)
  | pages (descriptors : List Obj)

/-- What the outside world answers during `attachToPage`. -/
structure AttachEnv where
  fetched : Fetched
  dial : String → Except Error Conn

/-- The test `page["type"] == "page" && page["url"] != ""`. -/
def typeAndUrlOk (page : Obj) : Bool :=
  decide (index page "type" = Json.str "page") && decide (index page "url" ≠ Json.str "")

/-- The statement `if b.conn != nil { b.conn.Close() }`. -/
def closeCurrent (b : Browser) : Browser :=
  match b.conn with
  | some c => { b with conn := some { c with closed := true } }
  | none => b

/-- The loop `for _, page := range pages` of `attachToPage` and the final
`return`. -/
def attachLoop (dial : String → Except Error Conn) (b : Browser) :
    List Obj → Option Error × Browser
  | [] => (some (Error.text "no suitable page found"), b)
  | page :: rest =>
    if typeAndUrlOk page then
      match (index page "webSocketDebuggerUrl").asString with
      | some wsURL =>
        let b1 := closeCurrent b
        match dial wsURL with
        | .error err => (some (Error.wrap "failed to connect to page WebSocket" err), b1)
        | .ok conn => (none, { b1 with conn := some conn, wsEndpoint := wsURL })
      | none => attachLoop dial b rest
    else attachLoop dial b rest

/-- The method `attachToPage`. -/
def attachToPage (env : AttachEnv) (b : Browser) : Option Error × Browser :=
  match env.fetched with
  | .getFailed err => (some (Error.wrap "failed to fetch active pages" err), b)
  | .decodeFailed err => (some (Error.wrap "failed to decode JSON" err), b)
  | .pages descriptors => attachLoop env.dial b descriptors

/-- What the outside world answers during `GreenLight`. -/
structure LaunchEnv where
  tempDir : String
  uuid : String
  debugPort : String
  start : Except Error Int
  attach : AttachEnv

/-- The method `launch`. -/
def launch (env : LaunchEnv) (startURL : String) (b : Browser) : Option Error × Browser :=
  let args : List String :=
    ["--remote-debugging-port=" ++ env.debugPort,
     "--no-first-run",
     "--user-data-dir=" ++ b.userDataDir,
     "--remote-allow-origins=*",
     startURL]
  let args := if b.isHeadless then args ++ ["--headless=new"] else args
  match env.start with
  | .error err =>
    (some (Error.wrap "failed to start browser" err),
     { b with cmd := some ⟨b.execPath, args, none⟩ })
  | .ok pid =>
    attachToPage env.attach { b with cmd := some ⟨b.execPath, args, some pid⟩, PID := pid }

/-- The function `GreenLight`.  The profile directory is the temp root joined
with `greenlight_` and a fresh identifier. -/
def GreenLight (env : LaunchEnv) (execPath : String) (isHeadless : Bool) (startURL : String) :
    Except Error Browser :=
  let userDataDir := env.tempDir ++ "/" ++ ("greenlight_" ++ env.uuid)
  let browser : Browser :=
    { execPath := execPath, wsEndpoint := "", conn := none, cmd := none, cancelled := false,
      userDataDir := userDataDir, messageID := 0, PID := 0, isHeadless := isHeadless }
  match launch env startURL browser with
  | (some err, _) => .error err
  | (none, b) => .ok b

/-- What the outside world answers during one send: the outcomes of a
reconnect, should one be attempted, and the result of `WriteJSON`. -/
structure SendEnv where
  attach : AttachEnv
  writeErr : Option Error

/-- The record of one send: the browser afterwards, the message the call built,
whether it ran `attachToPage`, and how it ended. -/
structure Sent (α : Type) where
  browser : Browser
  message : Message
  reconnected : Bool
  outcome : Completion α

/-- The loop `for { ... ReadMessage ... }` of `SendCommandWithResponse`: the
outcome and the frames left unread. -/
def readLoop (oor : Float64 → Int) (id : Int) :
    List ReadResult → Completion (Except Error Obj) × List ReadResult
  | [] => (.blocks, [])
  | .failure err :: rest =>
    (.returned (.error (Error.wrap "failed to read ws message" err)), rest)
  | .frame none :: rest => readLoop oor id rest
  | .frame (some response) :: rest =>
    match (index response "id").asFloat64 with
    | some responseID =>
      if goInt oor responseID = id then (.returned (.ok response), rest)
      else readLoop oor id rest
    | none => readLoop oor id rest

/-- `SendCommandWithResponse` from `b.conn.WriteJSON(message)` on. -/
def writeAndRead (oor : Float64 → Int) (env : SendEnv) (message : Message) (reconnected : Bool)
    (b : Browser) : Sent (Except Error Obj) :=
  match b.conn with
  | none => ⟨b, message, reconnected, .nilDeref⟩
  | some c =>
    match env.writeErr with
    | some err =>
      ⟨b, message, reconnected, .returned (.error (Error.wrap "failed to send ws message" err))⟩
    | none =>
      let r := readLoop oor message.id c.inbound
      ⟨{ b with conn := some { c with outbound := c.outbound ++ [message], inbound := r.2 } },
        message, reconnected, r.1⟩

/-- The method `SendCommandWithResponse`. -/
def SendCommandWithResponse (oor : Float64 → Int) (env : SendEnv) (method : String)
    (params : Obj) (b : Browser) : Sent (Except Error Obj) :=
  let b1 : Browser := { b with messageID := wrapInt (b.messageID + 1) }
  let id := b1.messageID
  let message : Message := ⟨id, method, params⟩
  match b1.conn with
  | none =>
    match attachToPage env.attach b1 with
    | (some err, b2) =>
      ⟨b2, message, true, .returned (.error (Error.wrap "failed to reconnect ws" err))⟩
    | (none, b2) => writeAndRead oor env message true b2
  | some _ => writeAndRead oor env message false b1

/-- `SendCommandWithoutResponse` from `b.conn.WriteJSON(message)` on. -/
def writeOnly (env : SendEnv) (message : Message) (reconnected : Bool) (b : Browser) :
    Sent (Option Error) :=
  match b.conn with
  | none => ⟨b, message, reconnected, .nilDeref⟩
  | some c =>
    match env.writeErr with
    | some err =>
      ⟨b, message, reconnected, .returned (some (Error.wrap "failed to send ws message" err))⟩
    | none =>
      ⟨{ b with conn := some { c with outbound := c.outbound ++ [message] } },
        message, reconnected, .returned none⟩

/-- The method `SendCommandWithoutResponse`. -/
def SendCommandWithoutResponse (env : SendEnv) (method : String) (params : Obj) (b : Browser) :
    Sent (Option Error) :=
  let b1 : Browser := { b with messageID := wrapInt (b.messageID + 1) }
  let id := b1.messageID
  let message : Message := ⟨id, method, params⟩
  match b1.conn with
  | none =>
    match attachToPage env.attach b1 with
    | (some err, b2) =>
      ⟨b2, message, true, .returned (some (Error.wrap "failed to reconnect ws" err))⟩
    | (none, b2) => writeOnly env message true b2
  | some _ => writeOnly env message false b1

/-- The method `NewPage`; the page it returns holds the browser. -/
def NewPage (b : Browser) : Except Error Browser :=
  match b.conn with
  | none => .error (Error.text "ws connection not established, cannot create a new page")
  | some _ => .ok b

/-- The teardown steps of `RedLight`. -/
inductive Step where
  | closeConn
  | killProcess
  | waitProcess
  | removeDir
  | cancelScope
deriving DecidableEq, Repr

/-- What the outside world answers during `RedLight`. -/
structure TeardownEnv where
  closeErr : Option Error
  killErr : Option Error
  waitErr : Option Error
  removeErr : Option Error

/-- The record of one `RedLight`: the error returned, the browser afterwards and
the steps that ran, in order. -/
structure Teardown where
  err : Option Error
  browser : Browser
  steps : List Step
deriving DecidableEq

/-- `RedLight` from `if b.userDataDir != ""` on. -/
def removeAndCancel (env : TeardownEnv) (b : Browser) (steps : List Step) : Teardown :=
  if b.userDataDir ≠ "" then
    match env.removeErr with
    | some err =>
      ⟨some (Error.wrap "error removing user data directory" err), b, steps ++ [.removeDir]⟩
    | none => ⟨none, { b with cancelled := true }, steps ++ [.removeDir, .cancelScope]⟩
  else ⟨none, { b with cancelled := true }, steps ++ [.cancelScope]⟩

/-- `RedLight` from `if b.cmd != nil && b.cmd.Process != nil` on. -/
def killAndAfter (env : TeardownEnv) (b : Browser) (steps : List Step) : Teardown :=
  match b.cmd.bind Cmd.process with
  | some _ =>
    match env.killErr with
    | some err =>
      ⟨some (Error.wrap "error killing browser process" err), b, steps ++ [.killProcess]⟩
    | none =>
      match env.waitErr with
      | some err => ⟨some err, b, steps ++ [.killProcess, .waitProcess]⟩
      | none => removeAndCancel env b (steps ++ [.killProcess, .waitProcess])
  | none => removeAndCancel env b steps

/-- The method `RedLight`. -/
def RedLight (env : TeardownEnv) (b : Browser) : Teardown :=
  match b.conn with
  | some c =>
    let b1 : Browser := { b with conn := some { c with closed := true } }
    match env.closeErr with
    | some err => ⟨some (Error.wrap "error closing ws" err), b1, [.closeConn]⟩
    | none => killAndAfter env b1 [.closeConn]
  | none => killAndAfter env b []

/-! ## `pkg/page` -/

/-- A command handed to the browser: the method and the params map. -/
structure Command where
  method : String
  params : Obj
deriving DecidableEq

/-- The interface `BrowserInterface`: whatever implements it has a state `σ`,
and each of the two operations returns its result and the state afterwards. -/
structure BrowserInterface (σ : Type) where
  SendCommandWithoutResponse : String → Obj → σ → Option Error × σ
  SendCommandWithResponse : String → Obj → σ → Except Error Obj × σ

/-- What surrounds a `Page`: the browser behind the interface and the clock.
`now` is the reading of `time.Now()` in nanoseconds, `sleep d` is
`time.Sleep(d)`. -/
structure World (σ : Type) where
  browser : BrowserInterface σ
  now : σ → Int
  sleep : Int → σ → σ

/-- A run in progress: the state of the world and the commands sent so far, in
order. -/
structure Run (σ : Type) where
  state : σ
  sent : List Command
deriving DecidableEq

/-- How `TypeSequentially`, which has no result, ends: it returns, or
`log.Fatalf` prints the message and exits the process. -/
inductive Exit where
  | returns
  | fatal (msg : String)
deriving DecidableEq

/-- The random source as a stream of draws: the value of the `i`-th draw when
`rand.Float32()` reads it, and when `rand.Int31n(n)` reads it. -/
structure RandStream where
  float32 : Nat → Float32
  int31n : Nat → Nat → Nat

variable {σ : Type}

/-- The call `l.page.browser.SendCommandWithoutResponse(method, params)`. -/
def sendWithout (W : World σ) (method : String) (params : Obj) (r : Run σ) :
    Option Error × Run σ :=
  ((W.browser.SendCommandWithoutResponse method params r.state).1,
   ⟨(W.browser.SendCommandWithoutResponse method params r.state).2,
    r.sent ++ [⟨method, params⟩]⟩)

/-- The call `l.page.browser.SendCommandWithResponse(method, params)`. -/
def sendWith (W : World σ) (method : String) (params : Obj) (r : Run σ) :
    Except Error Obj × Run σ :=
  ((W.browser.SendCommandWithResponse method params r.state).1,
   ⟨(W.browser.SendCommandWithResponse method params r.state).2,
    r.sent ++ [⟨method, params⟩]⟩)

/-- The call `time.Sleep(d)`. -/
def sleepFor (W : World σ) (d : Int) (r : Run σ) : Run σ := ⟨W.sleep d r.state, r.sent⟩

/-- The constant `timeout := 30 * time.Second`. -/
def timeout : Int := 30 * Second

/-- The constant `interval := 350 * time.Millisecond`. -/
def interval : Int := 350 * Millisecond

/-- The duration `time.Duration(delayMs) * time.Millisecond`. -/
def delayOf (delayMs : Int) : Int := wrapInt (delayMs * Millisecond)

/-- The params of the evaluation `document.querySelector("%s") !== null`. -/
def existsParams (selector : String) : Obj :=
  [("expression", Json.str ("document.querySelector(\"" ++ selector ++ "\") !== null")),
   ("returnByValue", Json.bool true)]

/-- The params of the evaluation `document.querySelector("%s").focus()`. -/
def focusParams (selector : String) : Obj :=
  [("expression", Json.str ("document.querySelector(\"" ++ selector ++ "\").focus()"))]

/-- The params of the evaluation `document.querySelector("%s").click()`. -/
def clickParams (selector : String) : Obj :=
  [("expression", Json.str ("document.querySelector(\"" ++ selector ++ "\").click()")),
   ("awaitPromise", Json.bool true)]

/-- The params of the evaluation `document.querySelector("%s").innerText`. -/
def innerTextParams (selector : String) : Obj :=
  [("expression", Json.str ("document.querySelector(\"" ++ selector ++ "\").innerText")),
   ("returnByValue", Json.bool true)]

/-- The params of `Input.insertText`. -/
def insertTextParams (text : String) : Obj := [("text", Json.str text)]

/-- The error `timeout exceeded while waiting for selector: %s`. -/
def timeoutError (selector : String) : Error :=
  Error.text ("timeout exceeded while waiting for selector: " ++ selector)

/-- The value at `response["result"]["result"]["value"]`, each level reached by
a type assertion to a map; `none` when a level is not a map. -/
def nestedValue (response : Obj) : Option Json :=
  match (index response "result").asMap with
  | some result =>
    match (index result "result").asMap with
    | some nestedResult => some (index nestedResult "value")
    | none => none
  | none => none

/-- The method `elementExists`. -/
def elementExists (W : World σ) (selector : String) (r : Run σ) :
    (Bool × Option Error) × Run σ :=
  match sendWith W "Runtime.evaluate" (existsParams selector) r with
  | (.error err, r1) => ((false, some err), r1)
  | (.ok response, r1) =>
    match (nestedValue response).bind Json.asBool with
    | some value => ((value, none), r1)
    | none => ((false, some (Error.shape "unexpected response format" response)), r1)

/-- `Fill` once the element exists: focus, select all, backspace, insert. -/
def fillFound (W : World σ) (selector value : String) (r : Run σ) : Option Error × Run σ :=
  match sendWithout W "Runtime.evaluate" (focusParams selector) r with
  | (some err, r1) => (some err, r1)
  | (none, r1) =>
    match sendWithout W "Input.dispatchKeyEvent"
        [("type", Json.str "keyDown"), ("modifiers", Json.num (Dyadic.ofInt 2)),
         ("key", Json.str "a")] r1 with
    | (some err, r2) => (some err, r2)
    | (none, r2) =>
      match sendWithout W "Input.dispatchKeyEvent"
          [("type", Json.str "keyDown"), ("key", Json.str "Backspace")] r2 with
      | (some err, r3) => (some err, r3)
      | (none, r3) => sendWithout W "Input.insertText" (insertTextParams value) r3

/-- The loop of `Fill`; `none` when the fuel runs out. -/
def fillLoop (W : World σ) (selector value : String) (startTime : Int) :
    Nat → Run σ → Option (Option Error × Run σ)
  | 0, _ => none
  | fuel + 1, r =>
    if W.now r.state - startTime > timeout then some (some (timeoutError selector), r)
    else
      match elementExists W selector r with
      | ((_, some _), r1) => fillLoop W selector value startTime fuel (sleepFor W interval r1)
      | ((true, none), r1) => some (fillFound W selector value r1)
      | ((false, none), r1) => fillLoop W selector value startTime fuel (sleepFor W interval r1)

/-- The method `Fill`. -/
def Fill (W : World σ) (selector value : String) (fuel : Nat) (r : Run σ) :
    Option (Option Error × Run σ) :=
  fillLoop W selector value (W.now r.state) fuel r

/-- `Click` once the element exists. -/
def clickFound (W : World σ) (selector : String) (r : Run σ) : Option Error × Run σ :=
  match sendWithout W "Runtime.evaluate" (clickParams selector) r with
  | (some err, r1) => (some (Error.wrap ("failed to click on selector " ++ selector) err), r1)
  | (none, r1) => (none, r1)

/-- The loop of `Click`; `none` when the fuel runs out. -/
def clickLoop (W : World σ) (selector : String) (startTime : Int) :
    Nat → Run σ → Option (Option Error × Run σ)
  | 0, _ => none
  | fuel + 1, r =>
    if W.now r.state - startTime > timeout then some (some (timeoutError selector), r)
    else
      match elementExists W selector r with
      | ((_, some _), r1) => clickLoop W selector startTime fuel (sleepFor W interval r1)
      | ((true, none), r1) => some (clickFound W selector r1)
      | ((false, none), r1) => clickLoop W selector startTime fuel (sleepFor W interval r1)

/-- The method `Click`. -/
def Click (W : World σ) (selector : String) (fuel : Nat) (r : Run σ) :
    Option (Option Error × Run σ) :=
  clickLoop W selector (W.now r.state) fuel r

/-- The loop `for _, char := range text` of `TypeSequentially`; the errors of
the sends are dropped. -/
def typeChars (W : World σ) (delayMs : Int) : List Char → Run σ → Run σ
  | [], r => r
  | ch :: rest, r =>
    typeChars W delayMs rest
      (sleepFor W (delayOf delayMs)
        (sendWithout W "Input.insertText" (insertTextParams (String.singleton ch)) r).2)

/-- `TypeSequentially` once the element exists. -/
def typeSequentiallyFound (W : World σ) (selector text : String) (delayMs : Int)
    (r : Run σ) : Run σ :=
  typeChars W delayMs text.toList (sendWithout W "Runtime.evaluate" (focusParams selector) r).2

/-- The loop of `TypeSequentially`; `none` when the fuel runs out. -/
def typeSequentiallyLoop (W : World σ) (selector text : String) (delayMs : Int)
    (startTime : Int) : Nat → Run σ → Option (Exit × Run σ)
  | 0, _ => none
  | fuel + 1, r =>
    if W.now r.state - startTime > timeout then
      some (Exit.fatal ("Timeout exceeded while waiting for selector: " ++ selector), r)
    else
      match elementExists W selector r with
      | ((_, some _), r1) =>
        typeSequentiallyLoop W selector text delayMs startTime fuel (sleepFor W interval r1)
      | ((true, none), r1) =>
        some (Exit.returns, typeSequentiallyFound W selector text delayMs r1)
      | ((false, none), r1) =>
        typeSequentiallyLoop W selector text delayMs startTime fuel (sleepFor W interval r1)

/-- The method `TypeSequentially`. -/
def TypeSequentially (W : World σ) (selector text : String) (delayMs : Int) (fuel : Nat)
    (r : Run σ) : Option (Exit × Run σ) :=
  typeSequentiallyLoop W selector text delayMs (W.now r.state) fuel r

/-- `InnerText` once the element exists. -/
def innerTextFound (W : World σ) (selector : String) (r : Run σ) :
    (String × Option Error) × Run σ :=
  match sendWith W "Runtime.evaluate" (innerTextParams selector) r with
  | (.error err, r1) =>
    (("", some (Error.wrap ("failed to get inner text for selector " ++ selector) err)), r1)
  | (.ok response, r1) =>
    match (index response "result").asMap with
    | some result =>
      match (index result "value").asString with
      | some value => ((value, none), r1)
      | none =>
        (("", some (Error.shape "unexpected response format for inner text" response)), r1)
    | none =>
      (("", some (Error.shape "unexpected response format for inner text" response)), r1)

/-- The loop of `InnerText`; `none` when the fuel runs out. -/
def innerTextLoop (W : World σ) (selector : String) (startTime : Int) :
    Nat → Run σ → Option ((String × Option Error) × Run σ)
  | 0, _ => none
  | fuel + 1, r =>
    if W.now r.state - startTime > timeout then some (("", some (timeoutError selector)), r)
    else
      match elementExists W selector r with
      | ((_, some _), r1) => innerTextLoop W selector startTime fuel (sleepFor W interval r1)
      | ((true, none), r1) => some (innerTextFound W selector r1)
      | ((false, none), r1) => innerTextLoop W selector startTime fuel (sleepFor W interval r1)

/-- The method `InnerText`. -/
def InnerText (W : World σ) (selector : String) (fuel : Nat) (r : Run σ) :
    Option ((String × Option Error) × Run σ) :=
  innerTextLoop W selector (W.now r.state) fuel r

/-- The constant 0.4 as the `float32` it is compared in: 13421773 / 2^25. -/
def mistakeThreshold : Float32 := ⟨13421773, -25⟩

/-- The params of the backspace key event of `TypeWithMistakes`. -/
def backspaceParams : Obj :=
  [("type", Json.str "rawKeyDown"), ("key", Json.str "Backspace"),
   ("windowsVirtualKeyCode", Json.num (Dyadic.ofInt 8)),
   ("nativeVirtualKeyCode", Json.num (Dyadic.ofInt 8))]

/-- The body `if rand.Float32() < 0.4 { ... }` of the character loop of
`TypeWithMistakes`, reading the draws from position `i` on: the error it
returns with, if any, the run, and the position of the next draw. -/
def mistake (W : World σ) (rnd : RandStream) (delayMs : Int) (i : Nat) (r : Run σ) :
    Option Error × Run σ × Nat :=
  if (rnd.float32 i).lt mistakeThreshold then
    let wrongChar := String.singleton (Char.ofNat (rnd.int31n (i + 1) 26 + 97))
    match sendWithout W "Input.insertText" (insertTextParams wrongChar) r with
    | (some err, r1) => (some err, r1, i + 2)
    | (none, r1) =>
      match sendWithout W "Input.dispatchKeyEvent" backspaceParams
          (sleepFor W (delayOf delayMs) r1) with
      | (some err, r2) => (some err, r2, i + 2)
      | (none, r2) => (none, sleepFor W (delayOf delayMs) r2, i + 2)
  else (none, r, i + 1)

/-- The loop `for _, char := range text` of `TypeWithMistakes` and the final
`return nil`. -/
def mistakeChars (W : World σ) (rnd : RandStream) (delayMs : Int) :
    List Char → Nat → Run σ → Option Error × Run σ
  | [], _, r => (none, r)
  | ch :: rest, i, r =>
    match mistake W rnd delayMs i r with
    | (some err, r1, _) => (some err, r1)
    | (none, r1, j) =>
      match sendWithout W "Input.insertText" (insertTextParams (String.singleton ch)) r1 with
      | (some err, r2) => (some err, r2)
      | (none, r2) => mistakeChars W rnd delayMs rest j (sleepFor W (delayOf delayMs) r2)

/-- `TypeWithMistakes` once the element exists. -/
def typeWithMistakesFound (W : World σ) (rnd : RandStream) (selector text : String)
    (delayMs : Int) (r : Run σ) : Option Error × Run σ :=
  match sendWithout W "Runtime.evaluate" (focusParams selector) r with
  | (some err, r1) => (some err, r1)
  | (none, r1) => mistakeChars W rnd delayMs text.toList 0 r1

/-- The loop of `TypeWithMistakes`; `none` when the fuel runs out. -/
def typeWithMistakesLoop (W : World σ) (rnd : RandStream) (selector text : String)
    (delayMs : Int) (startTime : Int) : Nat → Run σ → Option (Option Error × Run σ)
  | 0, _ => none
  | fuel + 1, r =>
    if W.now r.state - startTime > timeout then some (some (timeoutError selector), r)
    else
      match elementExists W selector r with
      | ((_, some _), r1) =>
        typeWithMistakesLoop W rnd selector text delayMs startTime fuel
          (sleepFor W interval r1)
      | ((true, none), r1) => some (typeWithMistakesFound W rnd selector text delayMs r1)
      | ((false, none), r1) =>
        typeWithMistakesLoop W rnd selector text delayMs startTime fuel
          (sleepFor W interval r1)

/-- The method `TypeWithMistakes`. -/
def TypeWithMistakes (W : World σ) (rnd : RandStream) (selector text : String)
    (delayMs : Int) (fuel : Nat) (r : Run σ) : Option (Option Error × Run σ) :=
  typeWithMistakesLoop W rnd selector text delayMs (W.now r.state) fuel r

/-- The method `GetHtml`. -/
def GetHtml (W : World σ) (r : Run σ) : (String × Option Error) × Run σ :=
  match sendWith W "Runtime.evaluate"
      [("expression", Json.str "document.documentElement.outerHTML"),
       ("returnByValue", Json.bool true)] r with
  | (.error err, r1) => (("", some err), r1)
  | (.ok response, r1) =>
    match (nestedValue response).bind Json.asString with
    | some htmlContent => ((htmlContent, none), r1)
    | none => (("", some (Error.shape "unexpected response format" response)), r1)

/-! ## Worlds used in the statements -/

/-- The response envelope whose `result.result.value` is the boolean `b`. -/
def boolResponse (b : Bool) : Obj :=
  [("id", Json.num (Dyadic.ofInt 1)),
   ("result", Json.obj [("result", Json.obj [("type", Json.str "boolean"),
      ("value", Json.bool b)])])]

/-- The response envelope whose `result.result.value` is the string `text`. -/
def stringResponse (text : String) : Obj :=
  [("id", Json.num (Dyadic.ofInt 2)),
   ("result", Json.obj [("result", Json.obj [("type", Json.str "string"),
      ("value", Json.str text)])])]

/-- The world `W` in which every failed poll for `selector` (an error of the
evaluate command, or a response without a boolean at `result.result.value`) is
replaced by a poll that reports the element absent; the state the command
leaves behind, every other command, the clock and the sleeps are those of `W`. -/
def maskPollFailures (selector : String) (W : World σ) : World σ :=
  { browser :=
      { SendCommandWithoutResponse := W.browser.SendCommandWithoutResponse,
        SendCommandWithResponse := fun method params s =>
          if method = "Runtime.evaluate" ∧ params = existsParams selector then
            match W.browser.SendCommandWithResponse method params s with
            | (.error _, s1) => (.ok (boolResponse false), s1)
            | (.ok response, s1) =>
              match (nestedValue response).bind Json.asBool with
              | some _ => (.ok response, s1)
              | none => (.ok (boolResponse false), s1)
          else W.browser.SendCommandWithResponse method params s },
    now := W.now,
    sleep := W.sleep }

/-- A world whose state is the clock; commands take no time and succeed, a
sleep advances the clock by its duration; every poll for `selector` answers
`found`, every other evaluation answers with the string `text` at
`result.result.value`. -/
def exWorld (selector : String) (found : Bool) (text : String) : World Int :=
  { browser :=
      { SendCommandWithoutResponse := fun _ _ s => (none, s),
        SendCommandWithResponse := fun _ params s =>
          if params = existsParams selector then (.ok (boolResponse found), s)
          else (.ok (stringResponse text), s) },
    now := fun s => s,
    sleep := fun d s => s + d }

/-- The world `exWorld selector true text` with every fire-and-forget command
failing. -/
def exFailingWorld (selector text : String) : World Int :=
  { browser :=
      { SendCommandWithoutResponse := fun _ _ s => (some (Error.text "broken pipe"), s),
        SendCommandWithResponse := (exWorld selector true text).browser.SendCommandWithResponse },
    now := fun s => s,
    sleep := fun d s => s + d }

/-- The world `exWorld selector true text` in which the polls fail with a read
error until two poll intervals have passed. -/
def exFlakyWorld (selector text : String) : World Int :=
  { browser :=
      { SendCommandWithoutResponse := fun _ _ s => (none, s),
        SendCommandWithResponse := fun _ params s =>
          if params = existsParams selector then
            if s < 2 * interval then (.error (Error.text "failed to read ws message: EOF"), s)
            else (.ok (boolResponse true), s)
          else (.ok (stringResponse text), s) },
    now := fun s => s,
    sleep := fun d s => s + d }

/-- A random stream in which every draw read by `rand.Float32()` is 0.5. -/
def exNoMistake : RandStream := ⟨fun _ => ⟨1, -1⟩, fun _ _ => 0⟩

/-- The poll command of a selector. -/
def pollCommand (selector : String) : Command := ⟨"Runtime.evaluate", existsParams selector⟩

/-! ## Sessions: sequences of calls on one `Browser` -/

/-- One call on a `Browser`, with what the outside world answers during it. -/
inductive Call where
  | sendWith (env : SendEnv) (method : String) (params : Obj)
  | sendWithout (env : SendEnv) (method : String) (params : Obj)
  | newPage
  | redLight (env : TeardownEnv)

/-- The browser after the call. -/
def Call.apply (oor : Float64 → Int) : Call → Browser → Browser
  | .sendWith env method params, b => (SendCommandWithResponse oor env method params b).browser
  | .sendWithout env method params, b => (SendCommandWithoutResponse env method params b).browser
  | .newPage, b => b
  | .redLight env, b => (RedLight env b).browser

/-- The message the call builds, when it is one of the two sends. -/
def Call.message (oor : Float64 → Int) : Call → Browser → Option Message
  | .sendWith env method params, b =>
    some (SendCommandWithResponse oor env method params b).message
  | .sendWithout env method params, b =>
    some (SendCommandWithoutResponse env method params b).message
  | .newPage, _ => none
  | .redLight _, _ => none

/-- The browser after a sequence of calls, one after the other. -/
def runCalls (oor : Float64 → Int) : List Call → Browser → Browser
  | [], b => b
  | c :: cs, b => runCalls oor cs (c.apply oor b)

/-- The messages built by the sends of a sequence of calls, in call order. -/
def messagesOf (oor : Float64 → Int) : List Call → Browser → List Message
  | [], _ => []
  | c :: cs, b =>
    match c.message oor b with
    | some m => m :: messagesOf oor cs (c.apply oor b)
    | none => messagesOf oor cs (c.apply oor b)

/-- One `SendCommandWithResponse` call of a sequential run. -/
structure Request where
  env : SendEnv
  method : String
  params : Obj

/-- Strictly sequential `SendCommandWithResponse` calls: each call starts when
the one before has returned; the records of the calls, in request order.  A
call that does not return ends the run. -/
def sendAll (oor : Float64 → Int) : List Request → Browser → List (Sent (Except Error Obj))
  | [], _ => []
  | r :: rs, b =>
    let s := SendCommandWithResponse oor r.env r.method r.params b
    match s.outcome with
    | .returned _ => s :: sendAll oor rs s.browser
    | _ => [s]

/-! ## Predicates used in the statements -/

/-- The object carries an `id` that is a number whose value is the integer `n`. -/
def idEquals (n : Int) (o : Obj) : Bool :=
  match (index o "id").asFloat64 with
  | some x => x.isInt n
  | none => false

/-- The object carries an `id` that is a number whose conversion to `int` is `n`. -/
def idConvertsTo (oor : Float64 → Int) (n : Int) (o : Obj) : Bool :=
  match (index o "id").asFloat64 with
  | some x => decide (goInt oor x = n)
  | none => false

/-- A read that the response loop consumes and discards while it waits for the
answer to request `n`: a payload that does not decode, or an object whose `id`
is missing, is not a number, or converts to another integer. -/
def discardedFor (oor : Float64 → Int) (n : Int) : ReadResult → Bool
  | .failure _ => false
  | .frame none => true
  | .frame (some o) => !idConvertsTo oor n o

/-- A descriptor has type `page`, a `url` that is not the empty string, and a
`webSocketDebuggerUrl` that is a string. -/
def accepted (d : Obj) : Bool :=
  decide (index d "type" = Json.str "page") && decide (index d "url" ≠ Json.str "") &&
    (index d "webSocketDebuggerUrl").asString.isSome

/-- A descriptor has type `page`, a `url` field holding a non-empty string, and
a `webSocketDebuggerUrl` that is a string. -/
def acceptedWithUrlPresent (d : Obj) : Bool :=
  decide (index d "type" = Json.str "page") &&
    (match d.lookup "url" with
     | some (Json.str u) => decide (u ≠ "")
     | _ => false) &&
    (index d "webSocketDebuggerUrl").asString.isSome

/-- The inbound stream made of, for each request in turn, some reads and then
one object. -/
def streamOf : List (List ReadResult × Obj) → List ReadResult
  | [] => []
  | seg :: segs => seg.1 ++ ReadResult.frame (some seg.2) :: streamOf segs

/-- Each segment of the stream belongs to the request of the same rank, the
counter standing at `n` before the first of them: the reads of the segment are
discarded for that request and its object answers it. -/
def addressedFrom (oor : Float64 → Int) : Int → List (List ReadResult × Obj) → Prop
  | _, [] => True
  | n, seg :: segs =>
    (∀ r ∈ seg.1, discardedFor oor (wrapInt (n + 1)) r = true) ∧
    idConvertsTo oor (wrapInt (n + 1)) seg.2 = true ∧
    addressedFrom oor (wrapInt (n + 1)) segs

/-- A platform whose out-of-range conversion yields the smallest `int`. -/
def oorMin : Float64 → Int := fun _ => minInt

/-- A connection with the given inbound stream and nothing written yet. -/
def exConn (inbound : List ReadResult) : Conn :=
  ⟨"ws://localhost:9222/devtools/page/1", inbound, [], false⟩

/-- A freshly launched browser attached to `exConn inbound`. -/
def exBrowser (inbound : List ReadResult) : Browser :=
  { execPath := "chrome", wsEndpoint := "ws://localhost:9222/devtools/page/1",
    conn := some (exConn inbound), cmd := some ⟨"chrome", [], some 4242⟩, cancelled := false,
    userDataDir := "/tmp/greenlight_0", messageID := 0, PID := 4242, isHeadless := true }

/-- A send during which the write succeeds (and a reconnect would be refused). -/
def exSendEnv : SendEnv :=
  ⟨⟨.pages [], fun _ => .error (Error.text "connection refused")⟩, none⟩

/-- A response object whose `id` is the number 1.5. -/
def exFrameHalf : Obj := [("id", Json.num ⟨3, -1⟩), ("result", Json.obj [])]

/-- A response object whose `id` is the number `n`. -/
def exFrame (n : Int) : Obj := [("id", Json.num (Dyadic.ofInt n)), ("result", Json.obj [])]

/-- A target list as the endpoint may answer it: a page descriptor without a
`url` field, then a page descriptor with one. -/
def exTargets : List Obj :=
  [[("type", Json.str "page"), ("webSocketDebuggerUrl", Json.str "ws://localhost:9222/a")],
   [("type", Json.str "page"), ("url", Json.str "https://example.test/"),
    ("webSocketDebuggerUrl", Json.str "ws://localhost:9222/b")]]

/-- A launch during which the process starts, the endpoint lists one page and
the socket accepts the connection. -/
def exLaunchEnv : LaunchEnv :=
  { tempDir := "/tmp", uuid := "0", debugPort := "9222", start := .ok 4242,
    attach :=
      ⟨.pages [[("type", Json.str "page"), ("url", Json.str "about:blank"),
                ("webSocketDebuggerUrl", Json.str "ws://localhost:9222/devtools/page/1")]],
       fun u => .ok ⟨u, [], [], false⟩⟩ }

/-- The browser `GreenLight` returns under `exLaunchEnv`. -/
def exLaunched : Browser :=
  { execPath := "chrome", wsEndpoint := "ws://localhost:9222/devtools/page/1",
    conn := some ⟨"ws://localhost:9222/devtools/page/1", [], [], false⟩,
    cmd := some ⟨"chrome",
      ["--remote-debugging-port=9222", "--no-first-run", "--user-data-dir=/tmp/greenlight_0",
       "--remote-allow-origins=*", "about:blank", "--headless=new"], some 4242⟩,
    cancelled := false, userDataDir := "/tmp/greenlight_0", messageID := 0, PID := 4242,
    isHeadless := true }

/-- A teardown in which every step succeeds. -/
def exTeardownEnv : TeardownEnv := ⟨none, none, none, none⟩

/-- What `attachToPage` does once it has chosen the socket URL `wsURL`. -/
def dialOutcome (dial : String → Except Error Conn) (b : Browser) (wsURL : String) :
    Option Error × Browser :=
  match dial wsURL with
  | .error err => (some (Error.wrap "failed to connect to page WebSocket" err), closeCurrent b)
  | .ok conn => (none, { closeCurrent b with conn := some conn, wsEndpoint := wsURL })

end Greenlight

namespace Greenlight

/-! ## Lemmas on the response loop -/

theorem readLoop_discard (oor : Float64 → Int) (n : Int) (pre rest : List ReadResult)
    (h : ∀ r ∈ pre, discardedFor oor n r = true) :
    readLoop oor n (pre ++ rest) = readLoop oor n rest := by
  induction pre with
  | nil => rfl
  | cons r pre ih =>
    have hr := h r (List.mem_cons_self _ _)
    have ih2 := ih (fun x hx => h x (List.mem_cons_of_mem _ hx))
    cases r with
    | failure e => simp [discardedFor] at hr
    | frame d =>
      cases d with
      | none => simpa [readLoop] using ih2
      | some o =>
        simp only [discardedFor, idConvertsTo] at hr
        simp only [List.cons_append, readLoop]
        cases hx : (index o "id").asFloat64 with
        | none => simpa using ih2
        | some x =>
          rw [hx] at hr
          simp at hr
          simp [hr, ih2]

theorem readLoop_answer (oor : Float64 → Int) (n : Int) (o : Obj) (rest : List ReadResult)
    (h : idConvertsTo oor n o = true) :
    readLoop oor n (.frame (some o) :: rest) = (.returned (.ok o), rest) := by
  simp only [idConvertsTo] at h
  simp only [readLoop]
  cases hx : (index o "id").asFloat64 with
  | none => rw [hx] at h; simp at h
  | some x =>
    rw [hx] at h
    simp at h
    simp [h]

theorem readLoop_ok (oor : Float64 → Int) (n : Int) (o : Obj) :
    ∀ l : List ReadResult, (readLoop oor n l).1 = .returned (.ok o) →
      idConvertsTo oor n o = true := by
  intro l
  induction l with
  | nil => intro h; simp [readLoop] at h
  | cons r l ih =>
    intro h
    cases r with
    | failure e => simp [readLoop] at h
    | frame d =>
      cases d with
      | none => exact ih (by simpa [readLoop] using h)
      | some o2 =>
        simp only [readLoop] at h
        cases hx : (index o2 "id").asFloat64 with
        | none => rw [hx] at h; exact ih h
        | some x =>
          rw [hx] at h
          by_cases hg : goInt oor x = n
          · simp [hg] at h
            subst h
            simp [idConvertsTo, hx, hg]
          · simp [hg] at h
            exact ih h

theorem readLoop_all_discarded (oor : Float64 → Int) (n : Int) :
    ∀ l : List ReadResult, (∀ r ∈ l, discardedFor oor n r = true) →
      readLoop oor n l = (.blocks, []) := by
  intro l h
  have := readLoop_discard oor n l [] h
  simpa [readLoop] using this

/-! ## `SendCommandWithResponse` -/

theorem SendCommandWithResponse_connected (oor : Float64 → Int) (env : SendEnv)
    (method : String) (params : Obj) (b : Browser) (c : Conn)
    (hconn : b.conn = some c) (hwrite : env.writeErr = none) :
    SendCommandWithResponse oor env method params b =
      ⟨{ b with
          messageID := wrapInt (b.messageID + 1),
          conn := some { c with
            outbound := c.outbound ++ [⟨wrapInt (b.messageID + 1), method, params⟩],
            inbound := (readLoop oor (wrapInt (b.messageID + 1)) c.inbound).2 } },
        ⟨wrapInt (b.messageID + 1), method, params⟩, false,
        (readLoop oor (wrapInt (b.messageID + 1)) c.inbound).1⟩ := by
  simp [SendCommandWithResponse, writeAndRead, hconn, hwrite]

theorem SendCommandWithResponse_message (oor : Float64 → Int) (env : SendEnv)
    (method : String) (params : Obj) (b : Browser) :
    (SendCommandWithResponse oor env method params b).message =
      ⟨wrapInt (b.messageID + 1), method, params⟩ := by
  unfold SendCommandWithResponse writeAndRead
  cases hc : b.conn with
  | none =>
    simp only []
    split
    · rfl
    · split <;> [rfl; (split <;> rfl)]
  | some c =>
    simp only []
    split <;> rfl

theorem SendCommandWithResponse_ok (oor : Float64 → Int) (env : SendEnv)
    (method : String) (params : Obj) (b : Browser) (o : Obj)
    (h : (SendCommandWithResponse oor env method params b).outcome = .returned (.ok o)) :
    idConvertsTo oor (wrapInt (b.messageID + 1)) o = true := by
  unfold SendCommandWithResponse writeAndRead at h
  cases hc : b.conn with
  | none =>
    simp only [hc] at h
    split at h
    · simp at h
    · split at h
      · simp at h
      · split at h
        · simp at h
        · exact readLoop_ok oor _ o _ h
  | some c =>
    simp only [hc] at h
    split at h
    · simp at h
    · exact readLoop_ok oor _ o _ h

theorem sendAll_in_order (oor : Float64 → Int) :
    ∀ (reqs : List Request) (segs : List (List ReadResult × Obj)) (b : Browser) (c : Conn)
      (rest : List ReadResult),
      reqs.length = segs.length → b.conn = some c → c.inbound = streamOf segs ++ rest →
      (∀ r ∈ reqs, r.env.writeErr = none) → addressedFrom oor b.messageID segs →
      (sendAll oor reqs b).map Sent.outcome = segs.map (fun seg => .returned (.ok seg.2)) := by
  intro reqs
  induction reqs with
  | nil =>
    intro segs b c rest hlen _ _ _ _
    cases segs with
    | nil => rfl
    | cons seg segs => simp at hlen
  | cons r rs ih =>
    intro segs b c rest hlen hconn hin hw haddr
    cases segs with
    | nil => simp at hlen
    | cons seg segs =>
      obtain ⟨hpre, hans, hrest⟩ := haddr
      have hwr : r.env.writeErr = none := hw r (List.mem_cons_self _ _)
      have hs := SendCommandWithResponse_connected oor r.env r.method r.params b c hconn hwr
      have hread : readLoop oor (wrapInt (b.messageID + 1)) c.inbound =
          (.returned (.ok seg.2), streamOf segs ++ rest) := by
        rw [hin]
        simp only [streamOf, List.append_assoc, List.cons_append]
        rw [readLoop_discard oor _ seg.1 _ hpre]
        exact readLoop_answer oor _ seg.2 _ hans
      rw [hread] at hs
      simp only [sendAll, hs, List.map_cons]
      congr 1
      exact ih segs _ _ rest (by simpa using hlen) rfl rfl
        (fun x hx => hw x (List.mem_cons_of_mem _ hx)) hrest

/-- C1 (amended): with the socket as a stream of inbound reads, a
`SendCommandWithResponse` call whose write succeeds gets request id
`n = messageID + 1` (wrapping) and returns the first object of the stream whose
`id` is a number that converts to `n` under Go's `int(...)` conversion (the
fraction is dropped), after consuming every earlier read, each of them a payload
that does not decode or an object whose `id` is missing, not a number, or
converts to another integer; it returns the wrapped read error when the stream
fails first.  Whenever any call returns a response, the `id` of that response
converts to the call's own request id; and strictly sequential calls on a stream
that carries, for each request in turn, discarded reads followed by an object
answering that request, return exactly those objects in request order. -/
theorem SendCommandWithResponse_returns_answer (oor : Float64 → Int) :
    (∀ (env : SendEnv) (method : String) (params : Obj) (b : Browser) (c : Conn)
        (pre post : List ReadResult),
        b.conn = some c → env.writeErr = none →
        (∀ r ∈ pre, discardedFor oor (wrapInt (b.messageID + 1)) r = true) →
        (SendCommandWithResponse oor env method params b).message.id
            = wrapInt (b.messageID + 1) ∧
        (∀ o : Obj, c.inbound = pre ++ ReadResult.frame (some o) :: post →
            idConvertsTo oor (wrapInt (b.messageID + 1)) o = true →
            (SendCommandWithResponse oor env method params b).outcome = .returned (.ok o) ∧
            (SendCommandWithResponse oor env method params b).browser.conn.map Conn.inbound
              = some post) ∧
        (∀ err : Error, c.inbound = pre ++ ReadResult.failure err :: post →
            (SendCommandWithResponse oor env method params b).outcome
              = .returned (.error (Error.wrap "failed to read ws message" err)) ∧
            (SendCommandWithResponse oor env method params b).browser.conn.map Conn.inbound
              = some post)) ∧
    (∀ (env : SendEnv) (method : String) (params : Obj) (b : Browser) (o : Obj),
        (SendCommandWithResponse oor env method params b).outcome = .returned (.ok o) →
        idConvertsTo oor (SendCommandWithResponse oor env method params b).message.id o
          = true) ∧
    (∀ (reqs : List Request) (segs : List (List ReadResult × Obj)) (b : Browser) (c : Conn)
        (rest : List ReadResult),
        reqs.length = segs.length → b.conn = some c → c.inbound = streamOf segs ++ rest →
        (∀ r ∈ reqs, r.env.writeErr = none) → addressedFrom oor b.messageID segs →
        (sendAll oor reqs b).map Sent.outcome
          = segs.map (fun seg => .returned (.ok seg.2))) := by
  refine ⟨?_, ?_, sendAll_in_order oor⟩
  · intro env method params b c pre post hconn hwrite hpre
    have hs := SendCommandWithResponse_connected oor env method params b c hconn hwrite
    refine ⟨by rw [hs], ?_, ?_⟩
    · intro o hin hans
      have hread : readLoop oor (wrapInt (b.messageID + 1)) c.inbound
          = (.returned (.ok o), post) := by
        rw [hin, readLoop_discard oor _ pre _ hpre]
        exact readLoop_answer oor _ o _ hans
      rw [hs, hread]
      exact ⟨rfl, rfl⟩
    · intro err hin
      have hread : readLoop oor (wrapInt (b.messageID + 1)) c.inbound
          = (.returned (.error (Error.wrap "failed to read ws message" err)), post) := by
        rw [hin, readLoop_discard oor _ pre _ hpre]
        rfl
      rw [hs, hread]
      exact ⟨rfl, rfl⟩
  · intro env method params b o h
    rw [SendCommandWithResponse_message]
    exact SendCommandWithResponse_ok oor env method params b o h

/-- C1 (as stated) fails: request 1 is answered by the first object of the
stream, whose `id` is 1.5 and not 1, although the next object carries `id` 1. -/
theorem SendCommandWithResponse_returns_fractional_id :
    (SendCommandWithResponse oorMin exSendEnv "Runtime.evaluate" []
        (exBrowser [.frame (some exFrameHalf), .frame (some (exFrame 1))])).message.id = 1 ∧
    (SendCommandWithResponse oorMin exSendEnv "Runtime.evaluate" []
        (exBrowser [.frame (some exFrameHalf), .frame (some (exFrame 1))])).outcome
      = .returned (.ok exFrameHalf) ∧
    idEquals 1 exFrameHalf = false ∧ idEquals 1 (exFrame 1) = true := by
  decide

/-- Witness of C1 (amended): request 1 skips an undecodable payload and the
answer to request 7 and returns the object with `id` 1; two sequential requests
get their two answers in order. -/
theorem SendCommandWithResponse_returns_answer_witness :
    (exBrowser [.frame none, .frame (some (exFrame 7)), .frame (some (exFrame 1)),
        .frame (some (exFrame 2))]).conn
      = some (exConn [.frame none, .frame (some (exFrame 7)), .frame (some (exFrame 1)),
          .frame (some (exFrame 2))]) ∧
    exSendEnv.writeErr = none ∧
    (SendCommandWithResponse oorMin exSendEnv "Runtime.evaluate" []
        (exBrowser [.frame none, .frame (some (exFrame 7)), .frame (some (exFrame 1)),
          .frame (some (exFrame 2))])).outcome = .returned (.ok (exFrame 1)) ∧
    (sendAll oorMin [⟨exSendEnv, "Page.enable", []⟩, ⟨exSendEnv, "Runtime.evaluate", []⟩]
        (exBrowser [.frame none, .frame (some (exFrame 7)), .frame (some (exFrame 1)),
          .frame (some (exFrame 2))])).map Sent.outcome
      = [.returned (.ok (exFrame 1)), .returned (.ok (exFrame 2))] :=
  ⟨rfl, rfl,
    (((SendCommandWithResponse_returns_answer oorMin).1 exSendEnv "Runtime.evaluate" []
        (exBrowser [.frame none, .frame (some (exFrame 7)), .frame (some (exFrame 1)),
          .frame (some (exFrame 2))])
        (exConn [.frame none, .frame (some (exFrame 7)), .frame (some (exFrame 1)),
          .frame (some (exFrame 2))])
        [.frame none, .frame (some (exFrame 7))] [.frame (some (exFrame 2))]
        rfl rfl (by decide)).2.1 (exFrame 1) rfl (by decide)).1,
    (SendCommandWithResponse_returns_answer oorMin).2.2
      [⟨exSendEnv, "Page.enable", []⟩, ⟨exSendEnv, "Runtime.evaluate", []⟩]
      [([.frame none, .frame (some (exFrame 7))], exFrame 1), ([], exFrame 2)]
      (exBrowser [.frame none, .frame (some (exFrame 7)), .frame (some (exFrame 1)),
          .frame (some (exFrame 2))])
      (exConn [.frame none, .frame (some (exFrame 7)), .frame (some (exFrame 1)),
          .frame (some (exFrame 2))])
      [] rfl rfl rfl (by decide) (by
        refine ⟨by decide, by decide, by decide, by decide, trivial⟩)⟩

/-! ## The message counter -/

theorem wrapInt_add (x y : Int) : wrapInt (wrapInt x + y) = wrapInt (x + y) := by
  unfold wrapInt
  omega

theorem wrapInt_small (x : Int) (h0 : -(2 ^ 63) ≤ x) (h1 : x < 2 ^ 63) : wrapInt x = x := by
  unfold wrapInt
  omega

theorem attachLoop_messageID (dial : String → Except Error Conn) (b : Browser) :
    ∀ ps : List Obj, (attachLoop dial b ps).2.messageID = b.messageID := by
  intro ps
  induction ps with
  | nil => rfl
  | cons p ps ih =>
    simp only [attachLoop]
    split
    · split
      · have hc : (closeCurrent b).messageID = b.messageID := by
          unfold closeCurrent
          split <;> rfl
        split <;> simp [hc]
      · exact ih
    · exact ih

theorem attachToPage_messageID (env : AttachEnv) (b : Browser) :
    (attachToPage env b).2.messageID = b.messageID := by
  unfold attachToPage
  split
  · rfl
  · rfl
  · exact attachLoop_messageID _ _ _

theorem SendCommandWithResponse_messageID (oor : Float64 → Int) (env : SendEnv)
    (method : String) (params : Obj) (b : Browser) :
    (SendCommandWithResponse oor env method params b).browser.messageID
      = wrapInt (b.messageID + 1) := by
  unfold SendCommandWithResponse writeAndRead
  cases hc : b.conn with
  | none =>
    simp only []
    have ha := attachToPage_messageID env.attach
      { b with messageID := wrapInt (b.messageID + 1), conn := none }
    split
    · rename_i err b2 heq
      rw [heq] at ha
      exact ha
    · rename_i b2 heq
      rw [heq] at ha
      split
      · exact ha
      · split <;> exact ha
  | some c =>
    simp only []
    split <;> rfl

theorem SendCommandWithoutResponse_message (env : SendEnv) (method : String) (params : Obj)
    (b : Browser) :
    (SendCommandWithoutResponse env method params b).message =
      ⟨wrapInt (b.messageID + 1), method, params⟩ := by
  unfold SendCommandWithoutResponse writeOnly
  cases hc : b.conn with
  | none =>
    simp only []
    split
    · rfl
    · split <;> [rfl; (split <;> rfl)]
  | some c =>
    simp only []
    split <;> rfl

theorem SendCommandWithoutResponse_messageID (env : SendEnv) (method : String) (params : Obj)
    (b : Browser) :
    (SendCommandWithoutResponse env method params b).browser.messageID
      = wrapInt (b.messageID + 1) := by
  unfold SendCommandWithoutResponse writeOnly
  cases hc : b.conn with
  | none =>
    simp only []
    have ha := attachToPage_messageID env.attach
      { b with messageID := wrapInt (b.messageID + 1), conn := none }
    split
    · rename_i err b2 heq
      rw [heq] at ha
      exact ha
    · rename_i b2 heq
      rw [heq] at ha
      split
      · exact ha
      · split <;> exact ha
  | some c =>
    simp only []
    split <;> rfl

theorem removeAndCancel_browser (env : TeardownEnv) (b : Browser) (steps : List Step) :
    (removeAndCancel env b steps).browser = b ∨
      (removeAndCancel env b steps).browser = { b with cancelled := true } := by
  unfold removeAndCancel
  split
  · split
    · exact Or.inl rfl
    · exact Or.inr rfl
  · exact Or.inr rfl

theorem killAndAfter_browser (env : TeardownEnv) (b : Browser) (steps : List Step) :
    (killAndAfter env b steps).browser = b ∨
      (killAndAfter env b steps).browser = { b with cancelled := true } := by
  unfold killAndAfter
  split
  · split
    · exact Or.inl rfl
    · split
      · exact Or.inl rfl
      · exact removeAndCancel_browser _ _ _
  · exact removeAndCancel_browser _ _ _

theorem RedLight_messageID (env : TeardownEnv) (b : Browser) :
    (RedLight env b).browser.messageID = b.messageID := by
  unfold RedLight
  split
  · simp only []
    split
    · rfl
    · rcases killAndAfter_browser env _ [.closeConn] with h | h <;> rw [h]
  · rcases killAndAfter_browser env b [] with h | h <;> rw [h]

theorem RedLight_conn (env : TeardownEnv) (b : Browser) :
    (RedLight env b).browser.conn.isSome = b.conn.isSome := by
  unfold RedLight
  split
  · rename_i c hc
    simp only [hc]
    split
    · rfl
    · rcases killAndAfter_browser env _ [.closeConn] with h | h <;> rw [h] <;> rfl
  · rcases killAndAfter_browser env b [] with h | h <;> rw [h]

theorem Call_message_id (oor : Float64 → Int) (c : Call) (b : Browser) (m : Message)
    (h : c.message oor b = some m) : m.id = wrapInt (b.messageID + 1) := by
  cases c with
  | sendWith env method params =>
    simp only [Call.message, Option.some.injEq] at h
    rw [← h, SendCommandWithResponse_message]
  | sendWithout env method params =>
    simp only [Call.message, Option.some.injEq] at h
    rw [← h, SendCommandWithoutResponse_message]
  | newPage => simp [Call.message] at h
  | redLight env => simp [Call.message] at h

theorem Call_apply_messageID (oor : Float64 → Int) (c : Call) (b : Browser) :
    (c.apply oor b).messageID =
      if (c.message oor b).isSome then wrapInt (b.messageID + 1) else b.messageID := by
  cases c with
  | sendWith env method params =>
    simp [Call.apply, Call.message, SendCommandWithResponse_messageID]
  | sendWithout env method params =>
    simp [Call.apply, Call.message, SendCommandWithoutResponse_messageID]
  | newPage => simp [Call.apply, Call.message]
  | redLight env => simp [Call.apply, Call.message, RedLight_messageID]

theorem messagesOf_ids (oor : Float64 → Int) :
    ∀ (calls : List Call) (b : Browser),
      (messagesOf oor calls b).map Message.id =
        (List.range (messagesOf oor calls b).length).map
          (fun k : Nat => wrapInt (b.messageID + ((k : Int) + 1))) := by
  intro calls
  induction calls with
  | nil => intro b; rfl
  | cons c cs ih =>
    intro b
    have hid := Call_apply_messageID oor c b
    cases hm : c.message oor b with
    | none =>
      rw [hm] at hid
      simp only [messagesOf, hm]
      rw [ih, show (c.apply oor b).messageID = b.messageID from by simpa using hid]
    | some m =>
      rw [hm] at hid
      simp only [messagesOf, hm, List.map_cons, List.length_cons]
      rw [ih, List.range_succ_eq_map, List.map_cons, List.map_map,
        show (c.apply oor b).messageID = wrapInt (b.messageID + 1) from by simpa using hid,
        Call_message_id oor c b m hm]
      congr 1
      · simp
        intro k _
        rw [wrapInt_add]
        congr 1
        ring

theorem GreenLight_messageID (env : LaunchEnv) (execPath : String) (isHeadless : Bool)
    (startURL : String) (b : Browser)
    (h : GreenLight env execPath isHeadless startURL = .ok b) : b.messageID = 0 := by
  unfold GreenLight at h
  simp only [] at h
  split at h
  · simp at h
  · rename_i b2 heq
    simp only [Except.ok.injEq] at h
    subst h
    have := congrArg (fun r => r.2.messageID) heq
    simp only [] at this
    rw [← this]
    unfold launch
    simp only []
    split
    · rfl
    · rw [attachToPage_messageID]

theorem messagesOf_replicate_length (oor : Float64 → Int) (env : SendEnv) (method : String)
    (params : Obj) :
    ∀ (n : Nat) (b : Browser),
      (messagesOf oor (List.replicate n (Call.sendWithout env method params)) b).length = n := by
  intro n
  induction n with
  | zero => intro b; rfl
  | succ n ih =>
    intro b
    simp only [List.replicate_succ, messagesOf, Call.message, List.length_cons, ih]

/-- C2 (amended): on a browser returned by `GreenLight`, for every sequence of
calls in any mix and with any outcome of each call, as long as fewer than
2^63 commands are sent (the counter is a 64-bit `int`), the k-th command carries
id k in its message: the ids are 1, 2, 3, ... in call order, hence strictly
increasing and never used twice. -/
theorem message_ids_count_up (oor : Float64 → Int) (env : LaunchEnv) (execPath : String)
    (isHeadless : Bool) (startURL : String) (b : Browser) (calls : List Call)
    (hb : GreenLight env execPath isHeadless startURL = .ok b)
    (hlen : (messagesOf oor calls b).length < 2 ^ 63) :
    (messagesOf oor calls b).map Message.id =
        (List.range (messagesOf oor calls b).length).map (fun k : Nat => (k : Int) + 1) ∧
    ((messagesOf oor calls b).map Message.id).Pairwise (fun i j => i < j) ∧
    ((messagesOf oor calls b).map Message.id).Nodup := by
  have h0 := GreenLight_messageID env execPath isHeadless startURL b hb
  have hids : (messagesOf oor calls b).map Message.id =
      (List.range (messagesOf oor calls b).length).map (fun k : Nat => (k : Int) + 1) := by
    rw [messagesOf_ids oor calls b, h0]
    apply List.map_congr_left
    intro k hk
    have hk2 : k < (messagesOf oor calls b).length := List.mem_range.mp hk
    rw [wrapInt_small] <;> omega
  have hpw : ((messagesOf oor calls b).map Message.id).Pairwise (fun i j => i < j) := by
    rw [hids, List.pairwise_map]
    exact (List.pairwise_lt_range _).imp (fun h => by omega)
  refine ⟨hids, hpw, ?_⟩
  exact hpw.imp (fun h => ne_of_lt h)

/-- C2 (as stated) fails: in a session of 2^63 commands the last command does
not carry id 2^63; its id is the smallest `int`. -/
theorem message_id_wraps :
    GreenLight exLaunchEnv "chrome" true "about:blank" = .ok exLaunched ∧
    ((messagesOf oorMin (List.replicate (2 ^ 63) (Call.sendWithout exSendEnv "Page.enable" []))
        exLaunched).map Message.id)[2 ^ 63 - 1]? = some (-(2 ^ 63)) := by
  refine ⟨by decide, ?_⟩
  rw [messagesOf_ids, messagesOf_replicate_length, List.getElem?_map,
    List.getElem?_range (by norm_num)]
  simp only [Option.map_some']
  congr 1

/-- Witness of C2 (amended): three commands around a `NewPage` call carry the
ids 1, 2, 3. -/
theorem message_ids_count_up_witness :
    GreenLight exLaunchEnv "chrome" true "about:blank" = .ok exLaunched ∧
    (messagesOf oorMin
        [Call.sendWithout exSendEnv "Page.enable" [], Call.newPage,
         Call.sendWith exSendEnv "Runtime.evaluate" [],
         Call.sendWithout exSendEnv "Page.reload" []] exLaunched).map Message.id
      = [1, 2, 3] :=
  ⟨by decide,
    (message_ids_count_up oorMin exLaunchEnv "chrome" true "about:blank" exLaunched
      [Call.sendWithout exSendEnv "Page.enable" [], Call.newPage,
       Call.sendWith exSendEnv "Runtime.evaluate" [],
       Call.sendWithout exSendEnv "Page.reload" []] (by decide) (by decide)).1⟩

/-! ## The connection field -/

theorem closeCurrent_conn (b : Browser) : (closeCurrent b).conn.isSome = b.conn.isSome := by
  unfold closeCurrent
  split
  · rename_i c hc
    simp [hc]
  · rfl

theorem attachLoop_conn (dial : String → Except Error Conn) (b : Browser) :
    ∀ ps : List Obj,
      ((attachLoop dial b ps).1 = none → (attachLoop dial b ps).2.conn.isSome = true) ∧
      (b.conn.isSome = true → (attachLoop dial b ps).2.conn.isSome = true) := by
  intro ps
  induction ps with
  | nil => exact ⟨fun h => by simp [attachLoop] at h, fun h => h⟩
  | cons p ps ih =>
    simp only [attachLoop]
    split
    · split
      · split
        · exact ⟨fun h => by simp at h, fun h => by rw [closeCurrent_conn]; exact h⟩
        · exact ⟨fun _ => rfl, fun _ => rfl⟩
      · exact ih
    · exact ih

theorem attachToPage_conn (env : AttachEnv) (b : Browser) :
    ((attachToPage env b).1 = none → (attachToPage env b).2.conn.isSome = true) ∧
    (b.conn.isSome = true → (attachToPage env b).2.conn.isSome = true) := by
  unfold attachToPage
  split
  · exact ⟨fun h => by simp at h, fun h => h⟩
  · exact ⟨fun h => by simp at h, fun h => h⟩
  · exact attachLoop_conn _ _ _

theorem GreenLight_conn (env : LaunchEnv) (execPath : String) (isHeadless : Bool)
    (startURL : String) (b : Browser)
    (h : GreenLight env execPath isHeadless startURL = .ok b) : b.conn.isSome = true := by
  unfold GreenLight at h
  simp only [] at h
  split at h
  · simp at h
  · rename_i b2 heq
    simp only [Except.ok.injEq] at h
    subst h
    unfold launch at heq
    simp only [] at heq
    split at heq
    · simp at heq
    · have h1 := congrArg Prod.fst heq
      have h2 := congrArg Prod.snd heq
      simp only [] at h1 h2
      rw [← h2]
      exact (attachToPage_conn _ _).1 h1

theorem SendCommandWithResponse_keeps_conn (oor : Float64 → Int) (env : SendEnv)
    (method : String) (params : Obj) (b : Browser) (h : b.conn.isSome = true) :
    (SendCommandWithResponse oor env method params b).browser.conn.isSome = true ∧
    (SendCommandWithResponse oor env method params b).reconnected = false := by
  unfold SendCommandWithResponse writeAndRead
  cases hc : b.conn with
  | none => simp [hc] at h
  | some c =>
    simp only []
    split <;> exact ⟨rfl, rfl⟩

theorem SendCommandWithoutResponse_keeps_conn (env : SendEnv)
    (method : String) (params : Obj) (b : Browser) (h : b.conn.isSome = true) :
    (SendCommandWithoutResponse env method params b).browser.conn.isSome = true ∧
    (SendCommandWithoutResponse env method params b).reconnected = false := by
  unfold SendCommandWithoutResponse writeOnly
  cases hc : b.conn with
  | none => simp [hc] at h
  | some c =>
    simp only []
    split <;> exact ⟨rfl, rfl⟩

theorem Call_apply_conn (oor : Float64 → Int) (c : Call) (b : Browser)
    (h : b.conn.isSome = true) : (c.apply oor b).conn.isSome = true := by
  cases c with
  | sendWith env method params =>
    exact (SendCommandWithResponse_keeps_conn oor env method params b h).1
  | sendWithout env method params =>
    exact (SendCommandWithoutResponse_keeps_conn env method params b h).1
  | newPage => exact h
  | redLight env =>
    simp only [Call.apply]
    rw [RedLight_conn]
    exact h

theorem runCalls_conn (oor : Float64 → Int) :
    ∀ (calls : List Call) (b : Browser), b.conn.isSome = true →
      (runCalls oor calls b).conn.isSome = true := by
  intro calls
  induction calls with
  | nil => intro b h; exact h
  | cons c cs ih => intro b h; exact ih _ (Call_apply_conn oor c b h)

/-- C10: on a browser that `GreenLight` returned without error, after every
finite sequence of `SendCommandWithResponse`, `SendCommandWithoutResponse`,
`NewPage` and `RedLight` calls, whatever the outcome of each write, read and
teardown step, the connection field is present; so `NewPage` succeeds there and
neither send operation takes its reconnect branch. -/
theorem connection_stays_present (oor : Float64 → Int) (env : LaunchEnv) (execPath : String)
    (isHeadless : Bool) (startURL : String) (b : Browser) (calls : List Call)
    (hb : GreenLight env execPath isHeadless startURL = .ok b) :
    (runCalls oor calls b).conn.isSome = true ∧
    NewPage (runCalls oor calls b) = .ok (runCalls oor calls b) ∧
    (∀ (e : SendEnv) (method : String) (params : Obj),
      (SendCommandWithResponse oor e method params (runCalls oor calls b)).reconnected = false ∧
      (SendCommandWithoutResponse e method params (runCalls oor calls b)).reconnected
        = false) := by
  have hconn := runCalls_conn oor calls b
    (GreenLight_conn env execPath isHeadless startURL b hb)
  refine ⟨hconn, ?_, fun e method params =>
    ⟨(SendCommandWithResponse_keeps_conn oor e method params _ hconn).2,
     (SendCommandWithoutResponse_keeps_conn e method params _ hconn).2⟩⟩
  unfold NewPage
  cases hc : (runCalls oor calls b).conn with
  | none => simp [hc] at hconn
  | some c => rfl

/-- Witness of C10: after a failed write, a teardown and another send, the
launched browser still has its connection and `NewPage` succeeds. -/
theorem connection_stays_present_witness :
    GreenLight exLaunchEnv "chrome" true "about:blank" = .ok exLaunched ∧
    (runCalls oorMin
      [Call.sendWithout ⟨exSendEnv.attach, some (Error.text "broken pipe")⟩ "Page.enable" [],
       Call.redLight exTeardownEnv,
       Call.sendWith exSendEnv "Runtime.evaluate" []] exLaunched).conn.isSome = true ∧
    NewPage (runCalls oorMin
      [Call.sendWithout ⟨exSendEnv.attach, some (Error.text "broken pipe")⟩ "Page.enable" [],
       Call.redLight exTeardownEnv,
       Call.sendWith exSendEnv "Runtime.evaluate" []] exLaunched)
      = .ok (runCalls oorMin
      [Call.sendWithout ⟨exSendEnv.attach, some (Error.text "broken pipe")⟩ "Page.enable" [],
       Call.redLight exTeardownEnv,
       Call.sendWith exSendEnv "Runtime.evaluate" []] exLaunched) :=
  ⟨by decide,
    (connection_stays_present oorMin exLaunchEnv "chrome" true "about:blank" exLaunched
      [Call.sendWithout ⟨exSendEnv.attach, some (Error.text "broken pipe")⟩ "Page.enable" [],
       Call.redLight exTeardownEnv,
       Call.sendWith exSendEnv "Runtime.evaluate" []] (by decide)).1,
    (connection_stays_present oorMin exLaunchEnv "chrome" true "about:blank" exLaunched
      [Call.sendWithout ⟨exSendEnv.attach, some (Error.text "broken pipe")⟩ "Page.enable" [],
       Call.redLight exTeardownEnv,
       Call.sendWith exSendEnv "Runtime.evaluate" []] (by decide)).2.1⟩

/-! ## Discovery -/

theorem attachLoop_skip (dial : String → Except Error Conn) (b : Browser)
    (pre rest : List Obj) (h : ∀ x ∈ pre, accepted x = false) :
    attachLoop dial b (pre ++ rest) = attachLoop dial b rest := by
  induction pre with
  | nil => rfl
  | cons p pre ih =>
    have hp := h p (List.mem_cons_self _ _)
    have ih2 := ih (fun x hx => h x (List.mem_cons_of_mem _ hx))
    simp only [List.cons_append, attachLoop]
    simp only [accepted, typeAndUrlOk] at hp ⊢
    split
    · rename_i hok
      rw [hok] at hp
      cases hw : (index p "webSocketDebuggerUrl").asString with
      | none => exact ih2
      | some w => rw [hw] at hp; simp at hp
    · exact ih2

theorem attachLoop_hit (dial : String → Except Error Conn) (b : Browser)
    (d : Obj) (rest : List Obj) (h : accepted d = true) :
    ∃ wsURL, index d "webSocketDebuggerUrl" = Json.str wsURL ∧
      attachLoop dial b (d :: rest) = dialOutcome dial b wsURL := by
  simp only [accepted, Bool.and_eq_true] at h
  obtain ⟨hok, hw⟩ := h
  cases hj : index d "webSocketDebuggerUrl" with
  | str w =>
    refine ⟨w, rfl, ?_⟩
    have hok2 : typeAndUrlOk d = true := by
      simp only [typeAndUrlOk, Bool.and_eq_true]
      exact hok
    simp only [attachLoop, hok2, hj, Json.asString, dialOutcome, if_true]
  | null => rw [hj] at hw; simp [Json.asString] at hw
  | bool _ => rw [hj] at hw; simp [Json.asString] at hw
  | num _ => rw [hj] at hw; simp [Json.asString] at hw
  | arr _ => rw [hj] at hw; simp [Json.asString] at hw
  | obj _ => rw [hj] at hw; simp [Json.asString] at hw

theorem dialOutcome_not_unsuitable (dial : String → Except Error Conn) (b : Browser)
    (wsURL : String) :
    (dialOutcome dial b wsURL).1 ≠ some (Error.text "no suitable page found") := by
  unfold dialOutcome
  split <;> simp

theorem attachLoop_unsuitable_iff (dial : String → Except Error Conn) (b : Browser) :
    ∀ ps : List Obj,
      (attachLoop dial b ps).1 = some (Error.text "no suitable page found") ↔
        ∀ d ∈ ps, accepted d = false := by
  intro ps
  induction ps with
  | nil => simp [attachLoop]
  | cons p ps ih =>
    cases hp : accepted p with
    | true =>
      obtain ⟨w, _, hw⟩ := attachLoop_hit dial b p ps hp
      rw [hw]
      constructor
      · intro h
        exact absurd h (dialOutcome_not_unsuitable dial b w)
      · intro h
        have := h p (List.mem_cons_self _ _)
        rw [hp] at this
        cases this
    | false =>
      have hs := attachLoop_skip dial b [p] ps (by simpa using hp)
      simp only [List.singleton_append] at hs
      rw [hs, ih]
      simp [hp]

/-- C7 (amended): for every decoded list of target descriptors, the selection
loop of `attachToPage` picks the first descriptor in list order whose type is
`page`, whose `url` is not the empty string (an absent `url`, or one that is not
a string, passes this test) and whose `webSocketDebuggerUrl` is a string, and
dials that descriptor's socket URL; it fails with the no-suitable-target error
if and only if the list holds no such descriptor. -/
theorem attachToPage_selects_first_accepted (dial : String → Except Error Conn) (b : Browser)
    (ps : List Obj) :
    (∀ (pre : List Obj) (d : Obj) (post : List Obj), ps = pre ++ d :: post →
        (∀ x ∈ pre, accepted x = false) → accepted d = true →
        ∃ wsURL, index d "webSocketDebuggerUrl" = Json.str wsURL ∧
          attachToPage ⟨.pages ps, dial⟩ b = dialOutcome dial b wsURL) ∧
    ((attachToPage ⟨.pages ps, dial⟩ b).1 = some (Error.text "no suitable page found") ↔
        ∀ d ∈ ps, accepted d = false) := by
  refine ⟨?_, attachLoop_unsuitable_iff dial b ps⟩
  intro pre d post hps hpre hd
  obtain ⟨w, hw, hout⟩ := attachLoop_hit dial b d post hd
  refine ⟨w, hw, ?_⟩
  show attachLoop dial b ps = _
  rw [hps, attachLoop_skip dial b pre _ hpre, hout]

/-- C7 (as stated) fails: the first descriptor of `exTargets` has no `url`
field, yet it is the one selected, and not the second, which has a non-empty
`url`. -/
theorem attachToPage_selects_descriptor_without_url :
    List.lookup "url" (exTargets.headD []) = none ∧
    acceptedWithUrlPresent (exTargets.headD []) = false ∧
    (exTargets.find? acceptedWithUrlPresent).map (fun d => index d "webSocketDebuggerUrl")
      = some (Json.str "ws://localhost:9222/b") ∧
    (attachToPage ⟨.pages exTargets, fun u => .ok ⟨u, [], [], false⟩⟩
        { exLaunched with conn := none, wsEndpoint := "" }).1 = none ∧
    (attachToPage ⟨.pages exTargets, fun u => .ok ⟨u, [], [], false⟩⟩
        { exLaunched with conn := none, wsEndpoint := "" }).2.wsEndpoint
      = "ws://localhost:9222/a" := by
  decide

/-- Witness of C7 (amended): in `exTargets` the first accepted descriptor is the
first one, and its socket URL is dialled. -/
theorem attachToPage_selects_first_accepted_witness :
    accepted (exTargets.headD []) = true ∧
    ∃ wsURL, index (exTargets.headD []) "webSocketDebuggerUrl" = Json.str wsURL ∧
      attachToPage ⟨.pages exTargets, fun u => .ok ⟨u, [], [], false⟩⟩ exLaunched
        = dialOutcome (fun u => .ok ⟨u, [], [], false⟩) exLaunched wsURL :=
  ⟨by decide,
    (attachToPage_selects_first_accepted (fun u => .ok ⟨u, [], [], false⟩) exLaunched
      exTargets).1 [] (exTargets.headD []) (exTargets.tail) rfl (by decide) (by decide)⟩

/-! ## Teardown -/

/-- C8 (the code at the failing inputs): when closing the connection fails,
`RedLight` returns that error after the one step; the process is not killed,
the profile directory is not removed and the scope is not cancelled.  When the
wait for the killed process reports an error, the directory removal and the
cancellation are not attempted either. -/
theorem RedLight_stops_at_first_failure (env : TeardownEnv) (b : Browser) (c : Conn)
    (cmd : Cmd) (pid : Int) (err : Error) :
    ((RedLight { env with closeErr := some err } { b with conn := some c }).steps
        = [Step.closeConn] ∧
     (RedLight { env with closeErr := some err } { b with conn := some c }).err
        = some (Error.wrap "error closing ws" err) ∧
     (RedLight { env with closeErr := some err } { b with conn := some c }).browser.cancelled
        = b.cancelled) ∧
    ((RedLight { env with closeErr := none, killErr := none, waitErr := some err }
        { b with conn := some c, cmd := some { cmd with process := some pid } }).steps
        = [Step.closeConn, Step.killProcess, Step.waitProcess] ∧
     (RedLight { env with closeErr := none, killErr := none, waitErr := some err }
        { b with conn := some c, cmd := some { cmd with process := some pid } }).err
        = some err) := by
  refine ⟨⟨rfl, rfl, rfl⟩, rfl, rfl⟩

/-! ## Polling: failed polls count as absent -/

theorem sendWithout_mask {σ : Type} (W : World σ) (selector method : String) (params : Obj)
    (r : Run σ) :
    sendWithout (maskPollFailures selector W) method params r = sendWithout W method params r :=
  rfl

theorem sleepFor_mask {σ : Type} (W : World σ) (selector : String) (d : Int) (r : Run σ) :
    sleepFor (maskPollFailures selector W) d r = sleepFor W d r :=
  rfl

theorem nestedValue_boolResponse (b : Bool) :
    (nestedValue (boolResponse b)).bind Json.asBool = some b := by
  cases b <;> decide

theorem elementExists_run {σ : Type} (W : World σ) (selector : String) (r : Run σ) :
    (elementExists W selector r).2 =
      ⟨(W.browser.SendCommandWithResponse "Runtime.evaluate" (existsParams selector) r.state).2,
        r.sent ++ [pollCommand selector]⟩ := by
  unfold elementExists sendWith
  split
  · rename_i err r1 heq
    exact (congrArg Prod.snd heq).symm
  · rename_i response r1 heq
    have h2 := (congrArg Prod.snd heq).symm
    split <;> exact h2

theorem elementExists_mask {σ : Type} (W : World σ) (selector : String) (r : Run σ) :
    elementExists (maskPollFailures selector W) selector r =
      (if (elementExists W selector r).1.2.isSome then (false, none)
        else (elementExists W selector r).1,
       (elementExists W selector r).2) := by
  unfold elementExists sendWith maskPollFailures
  simp only [and_self, if_true]
  cases hres : W.browser.SendCommandWithResponse "Runtime.evaluate" (existsParams selector)
      r.state with
  | mk res s1 =>
    cases res with
    | error err => simp [nestedValue_boolResponse]
    | ok response =>
      simp only []
      cases hv : (nestedValue response).bind Json.asBool with
      | none => simp [nestedValue_boolResponse]
      | some v => simp [hv]

theorem expression_ne (selector : String) : innerTextParams selector ≠ existsParams selector := by
  intro h
  simp only [innerTextParams, existsParams, List.cons.injEq, Prod.mk.injEq, Json.str.injEq,
    true_and, and_true] at h
  have h2 := congrArg String.data h
  simp only [String.data_append, List.append_assoc, List.append_cancel_left_eq] at h2
  revert h2
  decide

theorem innerTextFound_mask {σ : Type} (W : World σ) (selector : String) (r : Run σ) :
    innerTextFound (maskPollFailures selector W) selector r = innerTextFound W selector r := by
  unfold innerTextFound sendWith maskPollFailures
  simp only [expression_ne selector, and_false, if_false]

theorem fillFound_mask {σ : Type} (W : World σ) (selector value : String) (r : Run σ) :
    fillFound (maskPollFailures selector W) selector value r = fillFound W selector value r :=
  rfl

theorem clickFound_mask {σ : Type} (W : World σ) (selector : String) (r : Run σ) :
    clickFound (maskPollFailures selector W) selector r = clickFound W selector r :=
  rfl

theorem typeChars_mask {σ : Type} (W : World σ) (selector : String) (delayMs : Int) :
    ∀ (chars : List Char) (r : Run σ),
      typeChars (maskPollFailures selector W) delayMs chars r = typeChars W delayMs chars r := by
  intro chars
  induction chars with
  | nil => intro r; rfl
  | cons ch rest ih =>
    intro r
    simp only [typeChars, sendWithout_mask, sleepFor_mask]
    exact ih _

theorem typeSequentiallyFound_mask {σ : Type} (W : World σ) (selector text : String)
    (delayMs : Int) (r : Run σ) :
    typeSequentiallyFound (maskPollFailures selector W) selector text delayMs r
      = typeSequentiallyFound W selector text delayMs r := by
  simp only [typeSequentiallyFound, sendWithout_mask, typeChars_mask]

theorem mistake_mask {σ : Type} (W : World σ) (rnd : RandStream) (selector : String)
    (delayMs : Int) (i : Nat) (r : Run σ) :
    mistake (maskPollFailures selector W) rnd delayMs i r = mistake W rnd delayMs i r :=
  rfl

theorem mistakeChars_mask {σ : Type} (W : World σ) (rnd : RandStream) (selector : String)
    (delayMs : Int) :
    ∀ (chars : List Char) (i : Nat) (r : Run σ),
      mistakeChars (maskPollFailures selector W) rnd delayMs chars i r
        = mistakeChars W rnd delayMs chars i r := by
  intro chars
  induction chars with
  | nil => intro i r; rfl
  | cons ch rest ih =>
    intro i r
    simp only [mistakeChars, mistake_mask, sendWithout_mask, sleepFor_mask, ih]

theorem typeWithMistakesFound_mask {σ : Type} (W : World σ) (rnd : RandStream)
    (selector text : String) (delayMs : Int) (r : Run σ) :
    typeWithMistakesFound (maskPollFailures selector W) rnd selector text delayMs r
      = typeWithMistakesFound W rnd selector text delayMs r := by
  simp only [typeWithMistakesFound, sendWithout_mask, mistakeChars_mask]

theorem fillLoop_mask {σ : Type} (W : World σ) (selector value : String) (startTime : Int) :
    ∀ (fuel : Nat) (r : Run σ),
      fillLoop (maskPollFailures selector W) selector value startTime fuel r
        = fillLoop W selector value startTime fuel r := by
  intro fuel
  induction fuel with
  | zero => intro r; rfl
  | succ fuel ih =>
    intro r
    simp only [fillLoop]
    rw [show (maskPollFailures selector W).now = W.now from rfl, elementExists_mask]
    generalize elementExists W selector r = e
    obtain ⟨⟨b, err⟩, r1⟩ := e
    cases err with
    | some err => simp [sleepFor_mask, ih]
    | none => cases b <;> simp [sleepFor_mask, ih, fillFound_mask]

theorem fillLoop_retry {σ : Type} (W : World σ) (selector value : String) (startTime : Int)
    (fuel : Nat) (r : Run σ) (b : Bool) (err : Error)
    (hnot : ¬ W.now r.state - startTime > timeout)
    (hfail : (elementExists W selector r).1 = (b, some err)) :
    fillLoop W selector value startTime (fuel + 1) r
      = fillLoop W selector value startTime fuel
          (sleepFor W interval (elementExists W selector r).2) := by
  simp only [fillLoop, hnot, if_false]
  revert hfail
  generalize elementExists W selector r = e
  obtain ⟨⟨b2, err2⟩, r1⟩ := e
  intro hfail
  simp only [Prod.mk.injEq] at hfail
  obtain ⟨_, herr⟩ := hfail
  subst herr
  cases b2 <;> rfl

theorem clickLoop_mask {σ : Type} (W : World σ) (selector : String) (startTime : Int) :
    ∀ (fuel : Nat) (r : Run σ),
      clickLoop (maskPollFailures selector W) selector startTime fuel r
        = clickLoop W selector startTime fuel r := by
  intro fuel
  induction fuel with
  | zero => intro r; rfl
  | succ fuel ih =>
    intro r
    simp only [clickLoop]
    rw [show (maskPollFailures selector W).now = W.now from rfl, elementExists_mask]
    generalize elementExists W selector r = e
    obtain ⟨⟨b, err⟩, r1⟩ := e
    cases err with
    | some err => simp [sleepFor_mask, ih]
    | none => cases b <;> simp [sleepFor_mask, ih, clickFound_mask]

theorem clickLoop_retry {σ : Type} (W : World σ) (selector : String) (startTime : Int)
    (fuel : Nat) (r : Run σ) (b : Bool) (err : Error)
    (hnot : ¬ W.now r.state - startTime > timeout)
    (hfail : (elementExists W selector r).1 = (b, some err)) :
    clickLoop W selector startTime (fuel + 1) r
      = clickLoop W selector startTime fuel
          (sleepFor W interval (elementExists W selector r).2) := by
  simp only [clickLoop, hnot, if_false]
  revert hfail
  generalize elementExists W selector r = e
  obtain ⟨⟨b2, err2⟩, r1⟩ := e
  intro hfail
  simp only [Prod.mk.injEq] at hfail
  obtain ⟨_, herr⟩ := hfail
  subst herr
  cases b2 <;> rfl

theorem typeSequentiallyLoop_mask {σ : Type} (W : World σ) (selector text : String)
    (delayMs : Int) (startTime : Int) :
    ∀ (fuel : Nat) (r : Run σ),
      typeSequentiallyLoop (maskPollFailures selector W) selector text delayMs startTime fuel r
        = typeSequentiallyLoop W selector text delayMs startTime fuel r := by
  intro fuel
  induction fuel with
  | zero => intro r; rfl
  | succ fuel ih =>
    intro r
    simp only [typeSequentiallyLoop]
    rw [show (maskPollFailures selector W).now = W.now from rfl, elementExists_mask]
    generalize elementExists W selector r = e
    obtain ⟨⟨b, err⟩, r1⟩ := e
    cases err with
    | some err => simp [sleepFor_mask, ih]
    | none => cases b <;> simp [sleepFor_mask, ih, typeSequentiallyFound_mask]

theorem typeSequentiallyLoop_retry {σ : Type} (W : World σ) (selector text : String)
    (delayMs : Int) (startTime : Int)
    (fuel : Nat) (r : Run σ) (b : Bool) (err : Error)
    (hnot : ¬ W.now r.state - startTime > timeout)
    (hfail : (elementExists W selector r).1 = (b, some err)) :
    typeSequentiallyLoop W selector text delayMs startTime (fuel + 1) r
      = typeSequentiallyLoop W selector text delayMs startTime fuel
          (sleepFor W interval (elementExists W selector r).2) := by
  simp only [typeSequentiallyLoop, hnot, if_false]
  revert hfail
  generalize elementExists W selector r = e
  obtain ⟨⟨b2, err2⟩, r1⟩ := e
  intro hfail
  simp only [Prod.mk.injEq] at hfail
  obtain ⟨_, herr⟩ := hfail
  subst herr
  cases b2 <;> rfl

theorem innerTextLoop_mask {σ : Type} (W : World σ) (selector : String) (startTime : Int) :
    ∀ (fuel : Nat) (r : Run σ),
      innerTextLoop (maskPollFailures selector W) selector startTime fuel r
        = innerTextLoop W selector startTime fuel r := by
  intro fuel
  induction fuel with
  | zero => intro r; rfl
  | succ fuel ih =>
    intro r
    simp only [innerTextLoop]
    rw [show (maskPollFailures selector W).now = W.now from rfl, elementExists_mask]
    generalize elementExists W selector r = e
    obtain ⟨⟨b, err⟩, r1⟩ := e
    cases err with
    | some err => simp [sleepFor_mask, ih]
    | none => cases b <;> simp [sleepFor_mask, ih, innerTextFound_mask]

theorem innerTextLoop_retry {σ : Type} (W : World σ) (selector : String) (startTime : Int)
    (fuel : Nat) (r : Run σ) (b : Bool) (err : Error)
    (hnot : ¬ W.now r.state - startTime > timeout)
    (hfail : (elementExists W selector r).1 = (b, some err)) :
    innerTextLoop W selector startTime (fuel + 1) r
      = innerTextLoop W selector startTime fuel
          (sleepFor W interval (elementExists W selector r).2) := by
  simp only [innerTextLoop, hnot, if_false]
  revert hfail
  generalize elementExists W selector r = e
  obtain ⟨⟨b2, err2⟩, r1⟩ := e
  intro hfail
  simp only [Prod.mk.injEq] at hfail
  obtain ⟨_, herr⟩ := hfail
  subst herr
  cases b2 <;> rfl

theorem typeWithMistakesLoop_mask {σ : Type} (W : World σ) (rnd : RandStream)
    (selector text : String) (delayMs : Int) (startTime : Int) :
    ∀ (fuel : Nat) (r : Run σ),
      typeWithMistakesLoop (maskPollFailures selector W) rnd selector text delayMs startTime fuel r
        = typeWithMistakesLoop W rnd selector text delayMs startTime fuel r := by
  intro fuel
  induction fuel with
  | zero => intro r; rfl
  | succ fuel ih =>
    intro r
    simp only [typeWithMistakesLoop]
    rw [show (maskPollFailures selector W).now = W.now from rfl, elementExists_mask]
    generalize elementExists W selector r = e
    obtain ⟨⟨b, err⟩, r1⟩ := e
    cases err with
    | some err => simp [sleepFor_mask, ih]
    | none => cases b <;> simp [sleepFor_mask, ih, typeWithMistakesFound_mask]

theorem typeWithMistakesLoop_retry {σ : Type} (W : World σ) (rnd : RandStream)
    (selector text : String) (delayMs : Int) (startTime : Int)
    (fuel : Nat) (r : Run σ) (b : Bool) (err : Error)
    (hnot : ¬ W.now r.state - startTime > timeout)
    (hfail : (elementExists W selector r).1 = (b, some err)) :
    typeWithMistakesLoop W rnd selector text delayMs startTime (fuel + 1) r
      = typeWithMistakesLoop W rnd selector text delayMs startTime fuel
          (sleepFor W interval (elementExists W selector r).2) := by
  simp only [typeWithMistakesLoop, hnot, if_false]
  revert hfail
  generalize elementExists W selector r = e
  obtain ⟨⟨b2, err2⟩, r1⟩ := e
  intro hfail
  simp only [Prod.mk.injEq] at hfail
  obtain ⟨_, herr⟩ := hfail
  subst herr
  cases b2 <;> rfl

/-- C4: for each of `Fill`, `Click`, `TypeSequentially`, `TypeWithMistakes` and
`InnerText`, in every world and from every state, replacing each failed poll (an
error of the evaluate command, or a response without a boolean at
`result.result.value`) by a poll that reports the element absent changes neither
what the operation returns nor the commands it sends nor the state it ends in,
for every amount of fuel; and a poll that fails before the timeout makes the
loop sleep one interval and poll again instead of returning. -/
theorem failed_poll_is_not_yet_found {σ : Type} (W : World σ) (rnd : RandStream)
    (selector value text : String) (delayMs : Int) :
    (∀ (fuel : Nat) (r : Run σ),
      Fill (maskPollFailures selector W) selector value fuel r = Fill W selector value fuel r ∧
      Click (maskPollFailures selector W) selector fuel r = Click W selector fuel r ∧
      TypeSequentially (maskPollFailures selector W) selector text delayMs fuel r
        = TypeSequentially W selector text delayMs fuel r ∧
      TypeWithMistakes (maskPollFailures selector W) rnd selector text delayMs fuel r
        = TypeWithMistakes W rnd selector text delayMs fuel r ∧
      InnerText (maskPollFailures selector W) selector fuel r = InnerText W selector fuel r) ∧
    (∀ (startTime : Int) (fuel : Nat) (r : Run σ) (b : Bool) (err : Error),
      ¬ W.now r.state - startTime > timeout →
      (elementExists W selector r).1 = (b, some err) →
      fillLoop W selector value startTime (fuel + 1) r
        = fillLoop W selector value startTime fuel
            (sleepFor W interval (elementExists W selector r).2) ∧
      clickLoop W selector startTime (fuel + 1) r
        = clickLoop W selector startTime fuel
            (sleepFor W interval (elementExists W selector r).2) ∧
      typeSequentiallyLoop W selector text delayMs startTime (fuel + 1) r
        = typeSequentiallyLoop W selector text delayMs startTime fuel
            (sleepFor W interval (elementExists W selector r).2) ∧
      typeWithMistakesLoop W rnd selector text delayMs startTime (fuel + 1) r
        = typeWithMistakesLoop W rnd selector text delayMs startTime fuel
            (sleepFor W interval (elementExists W selector r).2) ∧
      innerTextLoop W selector startTime (fuel + 1) r
        = innerTextLoop W selector startTime fuel
            (sleepFor W interval (elementExists W selector r).2)) := by
  refine ⟨fun fuel r => ⟨?_, ?_, ?_, ?_, ?_⟩, fun startTime fuel r b err hnot hfail =>
    ⟨fillLoop_retry W selector value startTime fuel r b err hnot hfail,
     clickLoop_retry W selector startTime fuel r b err hnot hfail,
     typeSequentiallyLoop_retry W selector text delayMs startTime fuel r b err hnot hfail,
     typeWithMistakesLoop_retry W rnd selector text delayMs startTime fuel r b err hnot hfail,
     innerTextLoop_retry W selector startTime fuel r b err hnot hfail⟩⟩
  · exact fillLoop_mask W selector value _ fuel r
  · exact clickLoop_mask W selector _ fuel r
  · exact typeSequentiallyLoop_mask W selector text delayMs _ fuel r
  · exact typeWithMistakesLoop_mask W rnd selector text delayMs _ fuel r
  · exact innerTextLoop_mask W selector _ fuel r

/-- Witness of C4: in a world whose first two polls fail with a read error,
`Fill` and `InnerText` do the same with the failures masked, `Fill` succeeds,
and the first failed poll is followed by a sleep and another poll. -/
theorem failed_poll_is_not_yet_found_witness :
    Fill (maskPollFailures "#q" (exFlakyWorld "#q" "hello")) "#q" "v" 5 ⟨0, []⟩
      = Fill (exFlakyWorld "#q" "hello") "#q" "v" 5 ⟨0, []⟩ ∧
    InnerText (maskPollFailures "#q" (exFlakyWorld "#q" "hello")) "#q" 5 ⟨0, []⟩
      = InnerText (exFlakyWorld "#q" "hello") "#q" 5 ⟨0, []⟩ ∧
    (Fill (exFlakyWorld "#q" "hello") "#q" "v" 5 ⟨0, []⟩).map Prod.fst = some none ∧
    ¬ (exFlakyWorld "#q" "hello").now 0 - 0 > timeout ∧
    (elementExists (exFlakyWorld "#q" "hello") "#q" ⟨0, []⟩).1
      = (false, some (Error.text "failed to read ws message: EOF")) ∧
    fillLoop (exFlakyWorld "#q" "hello") "#q" "v" 0 (4 + 1) ⟨0, []⟩
      = fillLoop (exFlakyWorld "#q" "hello") "#q" "v" 0 4
          (sleepFor (exFlakyWorld "#q" "hello") interval
            (elementExists (exFlakyWorld "#q" "hello") "#q" ⟨0, []⟩).2) :=
  ⟨((failed_poll_is_not_yet_found (exFlakyWorld "#q" "hello") exNoMistake "#q" "v" "t" 10).1
      5 ⟨0, []⟩).1,
   ((failed_poll_is_not_yet_found (exFlakyWorld "#q" "hello") exNoMistake "#q" "v" "t" 10).1
      5 ⟨0, []⟩).2.2.2.2,
   by decide, by decide, by decide,
   ((failed_poll_is_not_yet_found (exFlakyWorld "#q" "hello") exNoMistake "#q" "v" "t" 10).2
      0 4 ⟨0, []⟩ false (Error.text "failed to read ws message: EOF")
      (by decide) (by decide)).1⟩

/-! ## Polling a selector that never appears -/

theorem fillLoop_never_found {σ : Type} (W : World σ) (selector value : String)
    (startTime : Int)
    (hcheck : ∀ s, W.now (W.browser.SendCommandWithResponse "Runtime.evaluate"
        (existsParams selector) s).2 = W.now s)
    (hsleep : ∀ d s, W.now (W.sleep d s) = W.now s + d)
    (habsent : ∀ r, (elementExists W selector r).1 = (false, none)) :
    ∀ (n fuel : Nat) (r : Run σ), n < fuel → n ≤ 86 →
      W.now r.state - startTime = interval * (86 - (n : Int)) →
      ∃ r2, fillLoop W selector value startTime fuel r = some (some (timeoutError selector), r2) ∧
        W.now r2.state = startTime + interval * 86 ∧
        r2.sent = r.sent ++ List.replicate n (pollCommand selector) := by
  intro n
  induction n with
  | zero =>
    intro fuel r hfuel _ hel
    obtain ⟨f, rfl⟩ : ∃ f, fuel = f + 1 := ⟨fuel - 1, by omega⟩
    refine ⟨r, ?_, ?_, by simp⟩
    · have : W.now r.state - startTime > timeout := by
        rw [hel]
        simp only [interval, timeout, Millisecond, Second]
        norm_num
      simp only [fillLoop, this, if_true]
    · simp only [interval, Millisecond] at hel ⊢
      omega
  | succ n ih =>
    intro fuel r hfuel hn hel
    obtain ⟨f, rfl⟩ : ∃ f, fuel = f + 1 := ⟨fuel - 1, by omega⟩
    have hnot : ¬ W.now r.state - startTime > timeout := by
      rw [hel]
      simp only [interval, timeout, Millisecond, Second]
      push_cast
      omega
    have hrun := elementExists_run W selector r
    have hab := habsent r
    have hstep : fillLoop W selector value startTime (f + 1) r
        = fillLoop W selector value startTime f
            (sleepFor W interval (elementExists W selector r).2) := by
      simp only [fillLoop, hnot, if_false]
      revert hab
      generalize elementExists W selector r = e
      obtain ⟨⟨b, err⟩, r1⟩ := e
      intro hab
      simp only [Prod.mk.injEq] at hab
      obtain ⟨hb, herr⟩ := hab
      subst hb
      subst herr
      rfl
    obtain ⟨r2, h1, h2, h3⟩ := ih f (sleepFor W interval (elementExists W selector r).2)
      (by omega) (by omega) (by
        rw [hrun]
        simp only [sleepFor, hsleep, hcheck]
        rw [show W.now r.state + interval - startTime
          = (W.now r.state - startTime) + interval from by ring, hel]
        push_cast
        ring)
    refine ⟨r2, by rw [hstep, h1], h2, ?_⟩
    rw [h3, hrun]
    simp [sleepFor, List.replicate_succ]

/-- C5: with the clock in integer nanoseconds (one millisecond is 10^6 of
them), in a world where an existence check takes no time, each sleep advances
the clock by exactly its duration and every existence check reports the element
absent, `Fill` with enough fuel (87 loop rounds) terminates with the timeout
error naming the selector, at an elapsed time between 30000 ms and 30350 ms, and
the commands it has sent are 86 polls and nothing else: no focus, key or
text-insertion command. -/
theorem Fill_times_out {σ : Type} (W : World σ) (selector value : String) (fuel : Nat)
    (r : Run σ)
    (hcheck : ∀ s, W.now (W.browser.SendCommandWithResponse "Runtime.evaluate"
        (existsParams selector) s).2 = W.now s)
    (hsleep : ∀ d s, W.now (W.sleep d s) = W.now s + d)
    (habsent : ∀ r, (elementExists W selector r).1 = (false, none))
    (hfuel : 87 ≤ fuel) :
    ∃ r2, Fill W selector value fuel r
        = some (some (Error.text ("timeout exceeded while waiting for selector: " ++ selector)),
            r2) ∧
      30000 * Millisecond ≤ W.now r2.state - W.now r.state ∧
      W.now r2.state - W.now r.state ≤ 30350 * Millisecond ∧
      r2.sent = r.sent ++ List.replicate 86 (pollCommand selector) := by
  obtain ⟨r2, h1, h2, h3⟩ := fillLoop_never_found W selector value (W.now r.state)
    hcheck hsleep habsent 86 fuel r (by omega) (by omega) (by simp)
  refine ⟨r2, h1, ?_, ?_, h3⟩
  · rw [h2]
    simp only [interval, Millisecond]
    omega
  · rw [h2]
    simp only [interval, Millisecond]
    omega

/-- Witness of C5: in `exWorld` with the element never found, `Fill` times out
within the bounds. -/
theorem Fill_times_out_witness :
    (∀ s, (exWorld "#missing" false "").now
        ((exWorld "#missing" false "").browser.SendCommandWithResponse "Runtime.evaluate"
          (existsParams "#missing") s).2 = (exWorld "#missing" false "").now s) ∧
    (∀ d s, (exWorld "#missing" false "").now ((exWorld "#missing" false "").sleep d s)
        = (exWorld "#missing" false "").now s + d) ∧
    (∀ r, (elementExists (exWorld "#missing" false "") "#missing" r).1 = (false, none)) ∧
    87 ≤ 100 ∧
    ∃ r2, Fill (exWorld "#missing" false "") "#missing" "v" 100 ⟨0, []⟩
        = some (some (Error.text
            ("timeout exceeded while waiting for selector: " ++ "#missing")), r2) ∧
      30000 * Millisecond ≤ (exWorld "#missing" false "").now r2.state
          - (exWorld "#missing" false "").now (0 : Int) ∧
      (exWorld "#missing" false "").now r2.state - (exWorld "#missing" false "").now (0 : Int)
          ≤ 30350 * Millisecond ∧
      r2.sent = [] ++ List.replicate 86 (pollCommand "#missing") :=
  ⟨fun _ => by simp [exWorld], fun _ _ => rfl,
    fun _ => by simp [elementExists, sendWith, exWorld, nestedValue_boolResponse],
    by decide,
    Fill_times_out (exWorld "#missing" false "") "#missing" "v" 100 ⟨0, []⟩
      (fun _ => by simp [exWorld]) (fun _ _ => rfl)
      (fun _ => by simp [elementExists, sendWith, exWorld, nestedValue_boolResponse])
      (by decide)⟩

/-- C3 (the code at the failing input): against a selector that never appears,
`TypeSequentially` does not return to its caller: it ends in `log.Fatalf`, which
exits the process, while `Fill`, `Click`, `InnerText` and `TypeWithMistakes`
return the timeout error naming the selector in the same world. -/
theorem TypeSequentially_exits_on_timeout :
    (TypeSequentially (exWorld "#missing" false "") "#missing" "hello" 10 100 ⟨0, []⟩).map
        Prod.fst
      = some (Exit.fatal "Timeout exceeded while waiting for selector: #missing") ∧
    (Fill (exWorld "#missing" false "") "#missing" "hello" 100 ⟨0, []⟩).map Prod.fst
      = some (some (Error.text "timeout exceeded while waiting for selector: #missing")) ∧
    (Click (exWorld "#missing" false "") "#missing" 100 ⟨0, []⟩).map Prod.fst
      = some (some (Error.text "timeout exceeded while waiting for selector: #missing")) ∧
    (InnerText (exWorld "#missing" false "") "#missing" 100 ⟨0, []⟩).map Prod.fst
      = some ("", some (Error.text "timeout exceeded while waiting for selector: #missing")) ∧
    (TypeWithMistakes (exWorld "#missing" false "") exNoMistake "#missing" "hello" 10 100
        ⟨0, []⟩).map Prod.fst
      = some (some (Error.text "timeout exceeded while waiting for selector: #missing")) := by
  decide

/-- C6 (the code at the failing input): the element exists and the evaluate
command answers with `Hello` at `result.result.value`; `GetHtml` reads the
string from that shape, but `InnerText` looks for `result.value`, finds none and
returns the unexpected-response error with an empty text. -/
theorem InnerText_misses_nested_value :
    nestedValue (stringResponse "Hello") = some (Json.str "Hello") ∧
    (GetHtml (exWorld "#title" true "Hello") ⟨0, []⟩).1 = ("Hello", none) ∧
    (elementExists (exWorld "#title" true "Hello") "#title" ⟨0, []⟩).1 = (true, none) ∧
    InnerText (exWorld "#title" true "Hello") "#title" 5 ⟨0, []⟩
      = some (("", some (Error.shape "unexpected response format for inner text"
            (stringResponse "Hello"))),
          ⟨0, [pollCommand "#title", ⟨"Runtime.evaluate", innerTextParams "#title"⟩]⟩) := by
  decide

/-! ## Typing without mistakes -/

theorem mistakeChars_no_mistake {σ : Type} (W : World σ) (rnd : RandStream) (delayMs : Int)
    (hno : ∀ i, (rnd.float32 i).lt mistakeThreshold = false)
    (hok : ∀ method params s, (W.browser.SendCommandWithoutResponse method params s).1 = none) :
    ∀ (chars : List Char) (i : Nat) (r : Run σ),
      mistakeChars W rnd delayMs chars i r = (none, typeChars W delayMs chars r) := by
  intro chars
  induction chars with
  | nil => intro i r; rfl
  | cons ch rest ih =>
    intro i r
    have hm : mistake W rnd delayMs i r = (none, r, i + 1) := by
      simp [mistake, hno i]
    have hs : sendWithout W "Input.insertText" (insertTextParams (String.singleton ch)) r
        = (none, (sendWithout W "Input.insertText"
            (insertTextParams (String.singleton ch)) r).2) := by
      simp only [sendWithout, hok]
    simp only [mistakeChars, hm, typeChars]
    rw [hs]
    exact ih _ _

theorem typeWithMistakesFound_no_mistake {σ : Type} (W : World σ) (rnd : RandStream)
    (selector text : String) (delayMs : Int)
    (hno : ∀ i, (rnd.float32 i).lt mistakeThreshold = false)
    (hok : ∀ method params s, (W.browser.SendCommandWithoutResponse method params s).1 = none)
    (r : Run σ) :
    typeWithMistakesFound W rnd selector text delayMs r
      = (none, typeSequentiallyFound W selector text delayMs r) := by
  have hs : sendWithout W "Runtime.evaluate" (focusParams selector) r
      = (none, (sendWithout W "Runtime.evaluate" (focusParams selector) r).2) := by
    simp only [sendWithout, hok]
  simp only [typeWithMistakesFound, typeSequentiallyFound]
  rw [hs]
  exact mistakeChars_no_mistake W rnd delayMs hno hok _ _ _

theorem typeChars_sent {σ : Type} (W : World σ) (delayMs : Int) :
    ∀ (chars : List Char) (r : Run σ),
      (typeChars W delayMs chars r).sent = r.sent ++ chars.map
        (fun ch => (⟨"Input.insertText", insertTextParams (String.singleton ch)⟩ : Command)) := by
  intro chars
  induction chars with
  | nil => intro r; simp [typeChars]
  | cons ch rest ih =>
    intro r
    simp only [typeChars]
    rw [ih]
    simp [sleepFor, sendWithout]

theorem loops_no_mistake {σ : Type} (W : World σ) (rnd : RandStream)
    (selector text : String) (delayMs : Int) (startTime : Int)
    (hno : ∀ i, (rnd.float32 i).lt mistakeThreshold = false)
    (hok : ∀ method params s, (W.browser.SendCommandWithoutResponse method params s).1 = none) :
    ∀ (fuel : Nat) (r : Run σ),
      (typeWithMistakesLoop W rnd selector text delayMs startTime fuel r).map Prod.snd
        = (typeSequentiallyLoop W selector text delayMs startTime fuel r).map Prod.snd := by
  intro fuel
  induction fuel with
  | zero => intro r; rfl
  | succ fuel ih =>
    intro r
    simp only [typeWithMistakesLoop, typeSequentiallyLoop]
    split
    · rfl
    · generalize elementExists W selector r = e
      obtain ⟨⟨b, err⟩, r1⟩ := e
      cases err with
      | some err => simp [ih]
      | none =>
        cases b
        · simp [ih]
        · simp [typeWithMistakesFound_no_mistake W rnd selector text delayMs hno hok]

/-- C9 (amended): with the random source as a stream of draws, for every
selector, text, delay and browser behind the interface in which no
fire-and-forget command fails, when no draw is below the 0.4 threshold
`TypeWithMistakes` sends the same commands and leaves the same state as
`TypeSequentially` for the same arguments, for every amount of fuel; and once
the element is found both send one focus evaluation followed by one
`Input.insertText` per character of the text, in order. -/
theorem TypeWithMistakes_without_mistakes {σ : Type} (W : World σ) (rnd : RandStream)
    (selector text : String) (delayMs : Int) (fuel : Nat) (r : Run σ)
    (hno : ∀ i, (rnd.float32 i).lt mistakeThreshold = false)
    (hok : ∀ method params s, (W.browser.SendCommandWithoutResponse method params s).1 = none) :
    (TypeWithMistakes W rnd selector text delayMs fuel r).map Prod.snd
      = (TypeSequentially W selector text delayMs fuel r).map Prod.snd ∧
    (typeWithMistakesFound W rnd selector text delayMs r).2
      = typeSequentiallyFound W selector text delayMs r ∧
    (typeSequentiallyFound W selector text delayMs r).sent
      = r.sent ++ (⟨"Runtime.evaluate", focusParams selector⟩ : Command) ::
          text.toList.map
            (fun ch => (⟨"Input.insertText", insertTextParams (String.singleton ch)⟩ : Command))
    := by
  refine ⟨loops_no_mistake W rnd selector text delayMs _ hno hok fuel r, ?_, ?_⟩
  · rw [typeWithMistakesFound_no_mistake W rnd selector text delayMs hno hok]
  · simp [typeSequentiallyFound, typeChars_sent, sendWithout]

/-- C9 (as stated) fails: the element is found and no draw is below the
threshold, but every fire-and-forget command fails; `TypeWithMistakes` stops
after the focus evaluation while `TypeSequentially` goes on to insert both
characters. -/
theorem TypeWithMistakes_stops_at_failed_command :
    (elementExists (exFailingWorld "#q" "") "#q" ⟨0, []⟩).1 = (true, none) ∧
    (exNoMistake.float32 0).lt mistakeThreshold = false ∧
    (exNoMistake.float32 1).lt mistakeThreshold = false ∧
    (TypeWithMistakes (exFailingWorld "#q" "") exNoMistake "#q" "ab" 10 5 ⟨0, []⟩).map
        (fun x => x.2.sent)
      = some [pollCommand "#q", ⟨"Runtime.evaluate", focusParams "#q"⟩] ∧
    (TypeSequentially (exFailingWorld "#q" "") "#q" "ab" 10 5 ⟨0, []⟩).map
        (fun x => x.2.sent)
      = some [pollCommand "#q", ⟨"Runtime.evaluate", focusParams "#q"⟩,
          ⟨"Input.insertText", insertTextParams "a"⟩,
          ⟨"Input.insertText", insertTextParams "b"⟩] := by
  decide

/-- Witness of C9 (amended): in `exWorld` with the element found and every draw
at 0.5, both operations send the poll, the focus and the two insertions. -/
theorem TypeWithMistakes_without_mistakes_witness :
    (∀ i, (exNoMistake.float32 i).lt mistakeThreshold = false) ∧
    (∀ method params s,
      ((exWorld "#q" true "").browser.SendCommandWithoutResponse method params s).1 = none) ∧
    (TypeWithMistakes (exWorld "#q" true "") exNoMistake "#q" "ab" 10 5 ⟨0, []⟩).map Prod.snd
      = (TypeSequentially (exWorld "#q" true "") "#q" "ab" 10 5 ⟨0, []⟩).map Prod.snd ∧
    (TypeSequentially (exWorld "#q" true "") "#q" "ab" 10 5 ⟨0, []⟩).map (fun x => x.2.sent)
      = some [pollCommand "#q", ⟨"Runtime.evaluate", focusParams "#q"⟩,
          ⟨"Input.insertText", insertTextParams "a"⟩,
          ⟨"Input.insertText", insertTextParams "b"⟩] :=
  ⟨fun _ => rfl, fun _ _ _ => rfl,
    (TypeWithMistakes_without_mistakes (exWorld "#q" true "") exNoMistake "#q" "ab" 10 5
      ⟨0, []⟩ (fun _ => rfl) (fun _ _ _ => rfl)).1,
    by decide⟩

end Greenlight
